import Mathlib

/-!
# Verification of the AIS voyage-extraction pipeline

A shallow embedding, over `Rat`/`Int`/`Nat` and Lean lists, of the core of the
AIS data-cleaning repository:

* `modules/centroid.py` (`find_centroid`),
* `import_ais_data.py` (`clean_ais.create_routes`, `clean_data`,
  `create_waypoints`, the private `__waypoints` bucketing step, and the
  precondition checks of every pipeline stage).

Modelling conventions:

* A pandas dataframe of pings is a `List Ping`; its positional index (the
  `reset_index` row number) is the position in the sorted list.
* Machine floats are modelled as exact rationals.  Where numpy float division
  by zero produces a non-finite value (NaN/Inf) — and thus no usable number —
  the embedding returns `none`.
* Timestamps are integer epoch seconds (`Int`); the source stores nanoseconds,
  and wherever the source computes on nanoseconds the embedding multiplies by
  `10^9` so the arithmetic is literal.
* `//` (python / numpy floor division) is `Int.fdiv`; `int(x)` applied to a
  non-negative float is `Int.tdiv`-style truncation, which on non-negative
  arguments coincides with `Int.fdiv`.
* The point-in-polygon engine (`modules.points_in_polygons`, absent from the
  sources) and the external `haversine` library are passed in as explicit
  function parameters `inside` and `dist`.
-/

namespace AISClean

attribute [local semireducible] Rat.add Rat.mul Rat.sub Rat.inv

/-- One AIS position report, the row format of the `ais_data` dataframe
(`import_ais` builds columns mmsi, time, long, lat, sog, cog). -/
structure Ping where
  mmsi : Nat
  time : Int
  lat : Rat
  long : Rat
  sog : Rat
  cog : Rat
deriving DecidableEq, Repr, Inhabited

/-- One row of the `ports` dataframe built by `import_ports`:
name, locode and the polygon as a list of (lat, long) vertices. -/
structure Port where
  name : String
  locode : String
  polygon : List (Rat × Rat)
deriving DecidableEq, Repr, Inhabited

/-! ## `modules/centroid.py` : `find_centroid`

The source iterates over the vertices, accumulates the shoelace cross
products into `signed_area` and the weighted coordinate sums into `x`, `y`,
then computes `x / (6 * signed_area)` and `y / (6 * signed_area)` with no
guard.  When `signed_area` is zero the numpy float division emits a
RuntimeWarning and yields NaN (or ±Inf) silently — no exception is raised
and no error is reported.  The embedding models that unguarded division: the
non-finite outcome of dividing by a zero `signed_area` is `none`, otherwise
the exact quotients are returned. -/

/-- The `(x, y, signed_area)` accumulator of `find_centroid`'s loop after
processing vertices `0 .. length-1`, exactly as in the source
(`x_last`/`y_last` taken at index `(i + 1) % length`). -/
def centroid_acc (polygon : List (Rat × Rat)) : Rat × Rat × Rat :=
  let length := polygon.length
  (List.range length).foldl
    (fun acc i =>
      let x_first := (polygon.getD i (0, 0)).1
      let y_first := (polygon.getD i (0, 0)).2
      let x_last := (polygon.getD ((i + 1) % length) (0, 0)).1
      let y_last := (polygon.getD ((i + 1) % length) (0, 0)).2
      let area_polygon := x_first * y_last - x_last * y_first
      (acc.1 + (x_first + x_last) * area_polygon,
       acc.2.1 + (y_first + y_last) * area_polygon,
       acc.2.2 + area_polygon))
    (0, 0, 0)

/-- `find_centroid` (modules/centroid.py).  `none` models the silent
non-finite result of the unguarded float division when the accumulated
signed area is zero. -/
def find_centroid (polygon : List (Rat × Rat)) : Option (Rat × Rat) :=
  let acc := centroid_acc polygon
  let signed_area := acc.2.2 * (1 / 2 : Rat)
  if signed_area = 0 then none
  else some (acc.1 / (6 * signed_area), acc.2.1 / (6 * signed_area))

/-- Signed area (the `signed_area` variable of `find_centroid` after the
`*= 0.5` step). -/
def signedArea (polygon : List (Rat × Rat)) : Rat :=
  (centroid_acc polygon).2.2 * (1 / 2 : Rat)

/-- Sanity: the unit square has centroid (1/2, 1/2). -/
example :
    find_centroid [(0, 0), (1, 0), (1, 1), (0, 1)] = some (1 / 2, 1 / 2) := by
  decide

/-! ## Polygon membership and first-match-wins assignment

`create_routes` calls `mask_from_polygons` (module
`modules.points_in_polygons`, whose implementation is not part of the
sources), converts the result to rows `(index, polygon_index)`, explodes the
per-polygon index lists and drops duplicate `index` values keeping the first
occurrence (`exploded_masks.drop_duplicates('index')`,
import_ais_data.py:260-264). -/

/-- Modelled from the spec: `mask_from_polygons`
(`modules.points_in_polygons.points_in_polygons`, absent from src/) returns,
per polygon in input order, the list of indices of the points lying inside
that polygon, paired with the polygon's position (§4.1: "returns, per
polygon, the indices of points inside it").  The point-in-polygon test
itself is the external parameter `inside`. -/
def mask_from_polygons (inside : Rat × Rat → List (Rat × Rat) → Bool)
    (lat long : List Rat) (polys : List (List (Rat × Rat))) :
    List (List Nat × Nat) :=
  polys.enum.map fun pip =>
    (((List.range lat.length).filter fun i =>
        inside (lat.getD i 0, long.getD i 0) pip.2), pip.1)

/-- `masks.explode('index')`: one `(index, polygon_index)` row per contained
point, in polygon-major order (rows for an empty index list vanish; the
source's NaN row for an empty polygon matches no ship index and is inert). -/
def explode_masks (masks : List (List Nat × Nat)) : List (Nat × Nat) :=
  (masks.map fun m => m.1.map fun i => (i, m.2)).flatten

/-- Fuel-driven kernel of `drop_duplicates_index`; the fuel is an upper
bound on the list length, so the `0, _ :: _` branch is never reached. -/
def drop_duplicates_aux : Nat → List (Nat × Nat) → List (Nat × Nat)
  | _, [] => []
  | 0, _ :: _ => []
  | n + 1, x :: xs =>
    x :: drop_duplicates_aux n (xs.filter fun y => y.1 ≠ x.1)

/-- `drop_duplicates('index')`: keep, for each point index, only the first
row carrying it. -/
def drop_duplicates_index (l : List (Nat × Nat)) : List (Nat × Nat) :=
  drop_duplicates_aux l.length l

/-- The deduplicated `(index, polygon_index)` table of `create_routes`
(the reassigned `exploded_masks`). -/
def exploded_dedup (inside : Rat × Rat → List (Rat × Rat) → Bool)
    (lat long : List Rat) (polys : List (List (Rat × Rat))) :
    List (Nat × Nat) :=
  drop_duplicates_index (explode_masks (mask_from_polygons inside lat long polys))

/-- The polygon assigned to point `i` by the deduplicated table (the
`polygon_index` the later merge attaches to ping `i`). -/
def assigned_polygon (inside : Rat × Rat → List (Rat × Rat) → Bool)
    (lat long : List Rat) (polys : List (List (Rat × Rat))) (i : Nat) :
    Option Nat :=
  ((exploded_dedup inside lat long polys).find? fun r => r.1 = i).map fun r => r.2

/-! ## `create_routes` (import_ais_data.py:224-392)

The embedding follows the source's dataframe steps one by one, on the sorted
ping table `ships` whose positional index is a list position:

* `ships = ais_data.sort_values(by=['mmsi','time'])` → `ships_sorted`;
* the polygon membership masks with `explode` + `drop_duplicates` →
  `assigned_polygon` above; `in_port` rows are the assigned positions;
* dwell grouping `groupby(['mmsi', (locode != locode.shift()).cumsum()])` →
  `split_runs` with adjacent in-port rows related iff mmsi and locode agree;
* the dock / pass-through test on first/last row of each dwell group →
  `RoutesCtx.docked` (a zero elapsed time gives a float NaN/Inf speed whose
  `<=` comparison is python `False`, hence not docked);
* `routes = pd.concat([out_port, time_out_port_values]).sort_index()` → the
  ascending positions that are not docked;
* voyage ids `groupby(['mmsi', (index != index.shift()+1).cumsum()])` →
  `split_runs` with adjacent rows related iff the index is contiguous and
  the mmsi agrees (the group codes, sorted by key, enumerate these runs in
  frame order);
* the `>= 10` point filter, the per-ship first/last id drop, and the
  `in_port.loc[first-1]` / `in_port.loc[last+1]` port attribution
  (`.loc` on an absent label raises a KeyError, modelled by `none`). -/

/-- `(mmsi, time)` lexicographic order of `sort_values(by=['mmsi','time'])`. -/
def ping_le (p q : Ping) : Prop :=
  p.mmsi < q.mmsi ∨ (p.mmsi = q.mmsi ∧ p.time ≤ q.time)

instance : DecidableRel ping_le := fun p q => by
  unfold ping_le
  infer_instance

instance : IsTotal Ping ping_le :=
  ⟨by intro p q; unfold ping_le; omega⟩

instance : IsTrans Ping ping_le :=
  ⟨by intro p q r; unfold ping_le; omega⟩

/-- The sorted ping table; after `reset_index` a row's label is its position
in this list. -/
def ships_sorted (pings : List Ping) : List Ping :=
  List.insertionSort ping_le pings

/-- Split a list into maximal runs of adjacent `rel`-related elements; this
is the effect of pandas `groupby` on a `cumsum` of a shifted-comparison
column (the cumulative sum increments exactly where the relation between a
row and its predecessor fails). -/
def split_runs {α : Type} (rel : α → α → Bool) : List α → List (List α)
  | [] => []
  | [x] => [[x]]
  | x :: y :: xs =>
    match split_runs rel (y :: xs) with
    | [] => [[x]]
    | r :: rs => if rel x y then (x :: r) :: rs else [x] :: r :: rs

/-- The parameters of `create_routes`: the external point-in-polygon test
(`mask_from_polygons` engine) and haversine distance, the `speed_limit`
argument, the `ports` dataframe and the raw `ais_data` pings. -/
structure RoutesCtx where
  inside : Rat × Rat → List (Rat × Rat) → Bool
  dist : Rat × Rat → Rat × Rat → Rat
  speed_limit : Rat
  ports : List Port
  pings : List Ping

/-- The sorted `ships` frame. -/
def RoutesCtx.ships (c : RoutesCtx) : List Ping :=
  ships_sorted c.pings

/-- Number of rows of `ships`. -/
def RoutesCtx.n (c : RoutesCtx) : Nat :=
  c.ships.length

/-- The ping at positional index `i`. -/
def RoutesCtx.pingAt (c : RoutesCtx) (i : Nat) : Ping :=
  c.ships.getD i default

/-- The `mmsi` column at position `i`. -/
def RoutesCtx.mmsiAt (c : RoutesCtx) (i : Nat) : Nat :=
  (c.pingAt i).mmsi

/-- The polygon (by `ports` position) containing ping `i`, duplicates
dropped first-match-wins. -/
def RoutesCtx.assigned (c : RoutesCtx) (i : Nat) : Option Nat :=
  assigned_polygon c.inside (c.ships.map (·.lat)) (c.ships.map (·.long))
    (c.ports.map (·.polygon)) i

/-- Positional indices of the `in_port` rows, ascending (the frame
`ships[constraint]`). -/
def RoutesCtx.in_port_idx (c : RoutesCtx) : List Nat :=
  (List.range c.n).filter fun i => (c.assigned i).isSome

/-- The `locode` column of the `in_port` frame (`none` where the label is
absent from that frame). -/
def RoutesCtx.locodeAt (c : RoutesCtx) (i : Nat) : Option String :=
  (c.assigned i).bind fun p => (c.ports[p]?).map (·.locode)

/-- Dwell grouping of the in-port rows
(`groupby(['mmsi', (locode != locode.shift()).cumsum()])`,
import_ais_data.py:300-314): adjacent in-port rows share a group iff both
mmsi and locode agree. -/
def RoutesCtx.dwell_groups (c : RoutesCtx) : List (List Nat) :=
  split_runs
    (fun i j => c.mmsiAt i == c.mmsiAt j && c.locodeAt i == c.locodeAt j)
    c.in_port_idx

/-- The dock / pass-through classification of a dwell group
(import_ais_data.py:316-332): average speed in knots between the group's
first and last row, `<= speed_limit`.  With zero elapsed time the python
float speed is NaN or Inf and the comparison is `False`. -/
def RoutesCtx.docked (c : RoutesCtx) (g : List Nat) : Bool :=
  let i := g.headD 0
  let j := g.getLastD 0
  let dt : Rat := (((c.pingAt j).time - (c.pingAt i).time : Int) : Rat)
  if dt = 0 then false
  else
    decide (c.dist ((c.pingAt i).lat, (c.pingAt i).long)
        ((c.pingAt j).lat, (c.pingAt j).long) / (dt / 3600)
        * (53996 / 100000 : Rat)
      ≤ c.speed_limit)

/-- Position `i` is a row of a genuinely docked dwell group. -/
def RoutesCtx.docked_pos (c : RoutesCtx) (i : Nat) : Bool :=
  c.dwell_groups.any fun g => c.docked g && g.contains i

/-- Position `i` is a row of a pass-through (transit) dwell group
(`time_out_port_idx`). -/
def RoutesCtx.transit_pos (c : RoutesCtx) (i : Nat) : Bool :=
  c.dwell_groups.any fun g => !c.docked g && g.contains i

/-- The `routes` frame: `pd.concat([out_port, time_out_port_values])`
`.sort_index()`, i.e. the ascending positions that are either outside every
port polygon or inside one only as a transit. -/
def RoutesCtx.routes_pos (c : RoutesCtx) : List Nat :=
  (List.range c.n).filter fun i => !(c.assigned i).isSome || c.transit_pos i

/-- Voyage runs: `groupby(['mmsi', (index != index.shift()+1).cumsum()])`;
adjacent route rows share a run iff the positional index is contiguous and
the mmsi agrees.  The source's `grouper.group_info[0]` ids enumerate these
runs in frame order. -/
def RoutesCtx.runs (c : RoutesCtx) : List (List Nat) :=
  split_runs (fun i j => j == i + 1 && c.mmsiAt i == c.mmsiAt j) c.routes_pos

/-- `route_port`: runs surviving the `point_count >= 10` filter
(import_ais_data.py:362-364). -/
def RoutesCtx.kept_runs (c : RoutesCtx) : List (List Nat) :=
  c.runs.filter fun r => 10 ≤ r.length

/-- The mmsi of a voyage run. -/
def RoutesCtx.run_mmsi (c : RoutesCtx) (r : List Nat) : Nat :=
  c.mmsiAt (r.headD 0)

/-- The first (`agg('first')`) kept run of ship `m` in frame order, i.e.
the voyage with that ship's earliest id. -/
def RoutesCtx.first_kept (c : RoutesCtx) (m : Nat) : Option (List Nat) :=
  c.kept_runs.find? fun r => c.run_mmsi r == m

/-- The last (`agg('last')`) kept run of ship `m` in frame order, i.e. the
voyage with that ship's latest id. -/
def RoutesCtx.last_kept (c : RoutesCtx) (m : Nat) : Option (List Nat) :=
  c.kept_runs.reverse.find? fun r => c.run_mmsi r == m

/-- Surviving voyages after dropping, per ship, the first and last trip
(`route_port[~route_port['id'].isin(remove_idx)]`,
import_ais_data.py:367-369). -/
def RoutesCtx.survivors (c : RoutesCtx) : List (List Nat) :=
  c.kept_runs.filter fun r =>
    !(c.first_kept (c.run_mmsi r) == some r)
      && !(c.last_kept (c.run_mmsi r) == some r)

/-- A surviving voyage with its origin/destination attribution columns. -/
structure Voyage where
  run : List Nat
  from_locode : Option String
  to_locode : Option String
deriving DecidableEq, Repr

/-- The `in_port.loc[label]['locode']` lookup used to build `from_to`
(import_ais_data.py:371-382); `none` models a KeyError on an absent label
(including the negative label `first - 1` when `first = 0`). -/
def RoutesCtx.in_port_locode (c : RoutesCtx) (i : Int) : Option String :=
  if 0 ≤ i then c.locodeAt i.toNat else none

/-- Attribution of a surviving run: origin from `in_port.loc[first - 1]`,
destination from `in_port.loc[last + 1]`. -/
def RoutesCtx.voyage_of (c : RoutesCtx) (r : List Nat) : Voyage :=
  { run := r
    from_locode := c.in_port_locode ((r.headD 0 : Int) - 1)
    to_locode := c.in_port_locode ((r.getLastD 0 : Int) + 1) }

/-- `create_routes`: the final `route_port` voyages with their attributed
origin and destination ports. -/
def create_routes (c : RoutesCtx) : List Voyage :=
  c.survivors.map c.voyage_of

/-! ## Routes / interpolated dataframe rows

After `create_routes`, both `self.routes` and `self.interpolated_routes`
hold rows with the ping columns, the voyage id, and the attached port
metadata columns (`from_locode .. to_time`). -/

/-- The port-metadata columns attached to every row of a voyage (the
columns kept by `port_info` in `__waypoints` besides `id`). -/
structure PortMeta where
  mmsi : Nat
  from_locode : String
  to_locode : String
  from_lat : Rat
  from_long : Rat
  to_lat : Rat
  to_long : Rat
  to_time : Int
deriving DecidableEq, Repr, Inhabited

/-- A row of the `routes` / `interpolated_routes` dataframes. -/
structure Row where
  id : Nat
  mmsi : Nat
  time : Int
  lat : Rat
  long : Rat
  sog : Rat
  cog : Rat
  from_locode : String
  to_locode : String
  from_lat : Rat
  from_long : Rat
  to_lat : Rat
  to_long : Rat
  to_time : Int
deriving DecidableEq, Repr, Inhabited

/-- The non-dropped columns of `port_info` in `__waypoints`
(`route.drop(['time','lat','long','sog','cog'], axis=1)`). -/
def Row.meta (r : Row) : PortMeta :=
  ⟨r.mmsi, r.from_locode, r.to_locode, r.from_lat, r.from_long, r.to_lat,
    r.to_long, r.to_time⟩

/-- The port lookup used for the auxiliary columns of `from_to`
(`in_port.loc[label]` joined with `ports`); `none` models a KeyError. -/
def RoutesCtx.in_port_port (c : RoutesCtx) (i : Int) : Option Port :=
  if 0 ≤ i then (c.assigned i.toNat).bind fun p => c.ports[p]? else none

/-- The voyage id of a run: the position of its group key among the sorted
group keys (`grouper.group_info[0]`), which enumerates the runs in frame
order. -/
def RoutesCtx.run_id (c : RoutesCtx) (r : List Nat) : Nat :=
  c.runs.findIdx fun s => s == r

/-- The final `self.routes` dataframe of `create_routes` as rows: each
surviving run's pings with the attribution columns merged on.  The
coordinate columns come from `find_centroid` of the attributed port's
polygon; its silent NaN outcome on a degenerate polygon, and the locode of
an absent label, surface here as the defaults of `getD` (the claims about
attribution are stated on `create_routes` itself). -/
def RoutesCtx.routes_rows (c : RoutesCtx) : List Row :=
  c.survivors.flatMap fun r =>
    let fp := c.in_port_port ((r.headD 0 : Int) - 1)
    let tp := c.in_port_port ((r.getLastD 0 : Int) + 1)
    let fc := (fp.map (·.polygon)).bind find_centroid
    let tc := (tp.map (·.polygon)).bind find_centroid
    r.map fun i =>
      { id := c.run_id r
        mmsi := c.mmsiAt i
        time := (c.pingAt i).time
        lat := (c.pingAt i).lat
        long := (c.pingAt i).long
        sog := (c.pingAt i).sog
        cog := (c.pingAt i).cog
        from_locode := (fp.map (·.locode)).getD ""
        to_locode := (tp.map (·.locode)).getD ""
        from_lat := (fc.map (·.1)).getD 0
        from_long := (fc.map (·.2)).getD 0
        to_lat := (tc.map (·.1)).getD 0
        to_long := (tc.map (·.2)).getD 0
        to_time := (c.pingAt ((r.getLastD 0) + 1)).time }

/-! ## `clean_data` (import_ais_data.py:488-540)

The resampler `__interpolate` (pandas `resample(...).mean()`
`.interpolate('linear')` per id, metadata joined back on id) supplies the
fixed-interval grid; the claims treat it as the grid supplier, so it is a
function parameter `inter` here, and the haversine library is the parameter
`dist`. -/

/-- Consecutive same-id pairs `(row, shifted row)` of the day grid: pandas
`groupby('id').shift(1)` gives each row its predecessor within the same id
in frame order, and `dropna()` removes each id's first row (whose shifted
columns are NaN). -/
def id_pairs (grid : List Row) (v : Nat) : List (Row × Row) :=
  let g := grid.filter fun r => r.id == v
  (g.zip g.tail).map fun pr => (pr.2, pr.1)

/-- Whether id `v` is removed by the stationarity pass: some row's distance
to its predecessor (`haversine((lat,long),(next_lat,next_long))`) is
strictly below `threshold`. -/
def stationary_id (dist : Rat × Rat → Rat × Rat → Rat) (threshold : Rat)
    (grid : List Row) (v : Nat) : Bool :=
  (id_pairs grid v).any fun pr =>
    decide (dist (pr.1.lat, pr.1.long) (pr.2.lat, pr.2.long) < threshold)

/-- Specification predicate for the stationarity pass: some consecutive
pair of the id's grid rows (in frame order) lies at distance
`< threshold`. -/
def has_close_consecutive_pair (dist : Rat × Rat → Rat × Rat → Rat)
    (threshold : Rat) (grid : List Row) (v : Nat) : Prop :=
  ∃ i, ∃ h : i + 1 < (grid.filter fun r => r.id == v).length,
    dist (((grid.filter fun r => r.id == v)[i + 1]).lat,
        ((grid.filter fun r => r.id == v)[i + 1]).long)
      (((grid.filter fun r => r.id == v)[i]).lat,
        ((grid.filter fun r => r.id == v)[i]).long) < threshold

/-- The stationarity pass of `clean_data` (import_ais_data.py:499-531):
resample the interpolated routes at `interval_s` and remove, whole-voyage
from both dataframes, every id having a consecutive grid pair at distance
`< threshold`. -/
def clean_data_pass1 (inter : Int → List Row → List Row)
    (dist : Rat × Rat → Rat × Rat → Rat) (threshold : Rat) (interval_s : Int)
    (routes interpolated_routes : List Row) : List Row × List Row :=
  let ais_inter_day := inter interval_s interpolated_routes
  (routes.filter fun r => !stationary_id dist threshold ais_inter_day r.id,
    interpolated_routes.filter fun r =>
      !stationary_id dist threshold ais_inter_day r.id)

/-- `clean_data`: the stationarity pass, then the minimum-speed pass
(import_ais_data.py:533-540): remove, from both dataframes, every id
having a remaining interpolated grid point with `sog <= speed`. -/
def clean_data (inter : Int → List Row → List Row)
    (dist : Rat × Rat → Rat × Rat → Rat) (threshold : Rat) (interval_s : Int)
    (speed : Rat) (routes interpolated_routes : List Row) :
    List Row × List Row :=
  let p1 := clean_data_pass1 inter dist threshold interval_s routes
    interpolated_routes
  let slow := fun v : Nat => p1.2.any fun r => r.id == v && decide (r.sog ≤ speed)
  (p1.1.filter fun r => !slow r.id, p1.2.filter fun r => !slow r.id)

/-! ## `__waypoints` (import_ais_data.py:590-632) -/

/-- First-occurrence deduplication (pandas `drop_duplicates()`). -/
def dedup_first {α : Type} [DecidableEq α] : List α → List α
  | [] => []
  | x :: xs => x :: (dedup_first xs).filter fun y => y ≠ x

/-- Per-id maximum of the time column (`g.transform('max')`). -/
def max_time (route : List Row) (v : Nat) : Int :=
  match (route.filter fun r => r.id == v).map (·.time) with
  | [] => 0
  | t :: ts => ts.foldl max t

/-- Per-id minimum of the time column (`g.transform('min')`). -/
def min_time (route : List Row) (v : Nat) : Int :=
  match (route.filter fun r => r.id == v).map (·.time) with
  | [] => 0
  | t :: ts => ts.foldl min t

/-- Bucket width `f` in whole seconds:
`(max - min).astype(int64) / (points - 1) // 10**9` on nanosecond values;
with integer-second timestamps the float true-division followed by the
floor-division equals the floor of the exact quotient, i.e.
`((max - min) * 10^9) fdiv ((points - 1) * 10^9)`. -/
def bucket_f (route : List Row) (points : Nat) (v : Nat) : Int :=
  Int.fdiv ((max_time route v - min_time route v) * 1000000000)
    (((points : Int) - 1) * 1000000000)

/-- `t0`: the id's min time floored to the day boundary
(`transform('min').dt.floor('d')`), in seconds. -/
def bucket_t0 (route : List Row) (v : Nat) : Int :=
  Int.fdiv (min_time route v) 86400 * 86400

/-- The grouped bucket timestamp of a row
(`s_group = t0 + s_since_t0 // f * f`, then `to_datetime`).  When `f = 0`
the numpy floor division yields NaN, `to_datetime` gives NaT, and the
groupby drops the row: modelled as `none`. -/
def bucket_time (route : List Row) (points : Nat) (r : Row) : Option Int :=
  let f := bucket_f route points r.id
  let t0 := bucket_t0 route r.id
  if f = 0 then none
  else some (t0 + Int.fdiv (r.time - t0) f * f)

/-- The distinct `(id, time_group)` keys of the groupby. -/
def wp_keys (route : List Row) (points : Nat) : List (Nat × Int) :=
  dedup_first (route.filterMap fun r =>
    (bucket_time route points r).map fun t => (r.id, t))

/-- Mean of one rational column over the rows of a bucket. -/
def bucket_mean (col : Row → Rat) (rows : List Row) : Rat :=
  (rows.map col).sum / (rows.length : Rat)

/-- The grouped-and-averaged frame `z` of `__waypoints` (before the
`port_info` merge): one row per `(id, time_group)` with the mean
lat/long/sog/cog of the bucket. -/
def wp_grouped (route : List Row) (points : Nat) :
    List (Nat × Int × Rat × Rat × Rat × Rat) :=
  (wp_keys route points).map fun k =>
    let rows := route.filter fun r =>
      r.id == k.1 && bucket_time route points r == some k.2
    (k.1, k.2, bucket_mean (·.lat) rows, bucket_mean (·.long) rows,
      bucket_mean (·.sog) rows, bucket_mean (·.cog) rows)

/-- `port_info`: the metadata columns with duplicates dropped. -/
def port_info (route : List Row) : List (Nat × PortMeta) :=
  dedup_first (route.map fun r => (r.id, r.meta))

/-- A waypoint row (the output format of `__waypoints`). -/
structure WRow where
  id : Nat
  time : Int
  lat : Rat
  long : Rat
  sog : Rat
  cog : Rat
  meta : PortMeta
deriving DecidableEq, Repr

/-- `__waypoints`: bucket, average, and merge back with `port_info` on id. -/
def waypoints_fn (route : List Row) (points : Nat) : List WRow :=
  (wp_grouped route points).flatMap fun z =>
    (port_info route).filterMap fun pm =>
      if pm.1 = z.1 then
        some { id := z.1, time := z.2.1, lat := z.2.2.1, long := z.2.2.2.1,
               sog := z.2.2.2.2.1, cog := z.2.2.2.2.2, meta := pm.2 }
      else none

/-- Four grid rows of one voyage at seconds 0, 1, 2, 3 (constant
metadata): a 3-second voyage. -/
def c6_route : List Row :=
  ([0, 1, 2, 3] : List Int).map fun k =>
    ⟨0, 1, k, 0, 0, 0, 0, "AAA", "BBB", 0, 0, 0, 0, 0⟩

/-- Two grid rows of one voyage sharing a single timestamp. -/
def c10_route : List Row :=
  [⟨0, 1, 5, 0, 0, 0, 0, "AAA", "BBB", 0, 0, 0, 0, 0⟩,
   ⟨0, 1, 5, 1, 1, 0, 0, "AAA", "BBB", 0, 0, 0, 0, 0⟩]

/-! ## `create_waypoints` (import_ais_data.py:542-588) -/

/-- Grid point count per id (`groupby('id')['lat'].count()`). -/
def point_count (interp : List Row) (v : Nat) : Nat :=
  (interp.filter fun r => r.id == v).length

/-- `groupby('id')['time'].first()` over the raw routes frame. -/
def first_time (routes : List Row) (v : Nat) : Int :=
  ((routes.filter fun r => r.id == v).map (·.time)).headD 0

/-- `groupby('id')['time'].last()` over the raw routes frame. -/
def last_time (routes : List Row) (v : Nat) : Int :=
  ((routes.filter fun r => r.id == v).map (·.time)).getLastD 0

/-- Trip length in whole minutes
(`(time_last - time_first).astype('timedelta64[m]')`; the truncation of the
non-negative difference is the floor division by 60). -/
def trip_length_min (routes : List Row) (v : Nat) : Int :=
  Int.fdiv (last_time routes v - first_time routes v) 60

/-- `port_route_copy` after the merge with `delta_time` and the
`length >= 30` filter: interpolated rows of ids that have fewer than
`amount` grid points, occur in the raw routes frame (the inner merge), and
whose trip length is at least 30 minutes. -/
def wp_short_kept (routes interp : List Row) (amount : Nat) : List Row :=
  (interp.filter fun r =>
      decide (point_count interp r.id < amount)
        && routes.any fun q => q.id == r.id).filter
    fun r => decide (30 ≤ trip_length_min routes r.id)

/-- `smallest_time = port_route_copy['length'].min()`: `none` (a float NaN,
on which the subsequent `int(...)` raises a ValueError) when no short
voyage survives the 30-minute cut. -/
def wp_smallest_length (routes interp : List Row) (amount : Nat) : Option Int :=
  ((wp_short_kept routes interp amount).map fun r =>
    trip_length_min routes r.id).min?

/-- The single re-resampling interval
`int(smallest_time * 60 / self.waypoint_amount)` in seconds: the smallest
qualifying trip length in minutes times 60, divided by the waypoint
*amount* (not amount − 1), truncated. -/
def wp_interval (routes interp : List Row) (amount : Nat) : Option Int :=
  (wp_smallest_length routes interp amount).map fun s =>
    Int.fdiv (s * 60) (amount : Int)

/-- `interpolated_local`: the interpolated rows whose id is not in
`remove_id` (the ids of the merged short frame; the removal predicate
depends only on the id). -/
def wp_interpolated_local (routes interp : List Row) (amount : Nat) :
    List Row :=
  interp.filter fun r =>
    !(decide (point_count interp r.id < amount)
        && routes.any fun q => q.id == r.id)

/-- `create_waypoints`: re-resample the short voyages at the single
interval `wp_interval`, drop all short ids from the interpolated frame,
concatenate, and bucket with `__waypoints`.  `none` models the ValueError
of `int(nan)` when no short voyage is at least 30 minutes long. -/
def create_waypoints (inter : Int → List Row → List Row)
    (routes interp : List Row) (amount : Nat) : Option (List WRow) :=
  match wp_interval routes interp amount with
  | none => none
  | some iv =>
    some (waypoints_fn
      (inter iv (wp_short_kept routes interp amount)
        ++ wp_interpolated_local routes interp amount) amount)

/-- A 30-minute voyage for the re-resampling interval check: two raw route
rows at seconds 0 and 1800, two interpolated grid rows. -/
def c4_routes : List Row :=
  [⟨0, 1, 0, 0, 0, 0, 0, "AAA", "BBB", 0, 0, 0, 0, 0⟩,
   ⟨0, 1, 1800, 1, 1, 0, 0, "AAA", "BBB", 0, 0, 0, 0, 0⟩]

/-- The interpolated grid of the 30-minute voyage (2 points, fewer than the
waypoint amount). -/
def c4_interp : List Row :=
  [⟨0, 1, 0, 0, 0, 0, 0, "AAA", "BBB", 0, 0, 0, 0, 0⟩,
   ⟨0, 1, 1800, 1, 1, 0, 0, "AAA", "BBB", 0, 0, 0, 0, 0⟩]

/-! ## The `clean_ais` pipeline object and its precondition checks
(import_ais_data.py:21-60, 224-236, 394-404, 475-497, 542-550)

Each stage first checks that its required upstream dataframes are not
`None` and raises `NotdefinedError` otherwise; a method is modelled as a
function from the object state to the new state paired with the optional
raised error message. -/

/-- The mutable state of a `clean_ais` object. -/
structure CleanAis where
  ports : Option (List Port)
  routes : Option (List Row)
  interpolated_routes : Option (List Row)
  polygon : Option (List (Rat × Rat))
  ais_data : Option (List Ping)
  waypoints : Option (List WRow)
  waypoint_amount : Option Nat
deriving Repr

/-- The message of `NotdefinedError(variable)` (modules/errors.py:97-101). -/
def notdefined_msg (v : String) : String :=
  v ++ " does not exist or is None and shouldnt be."

/-- `remove_routes_outside_polygon` body (import_ais_data.py:406-426):
drop every id owning a row whose positional index is not reported inside
the area polygon. -/
def remove_outside (inside : Rat × Rat → List (Rat × Rat) → Bool)
    (polygon : List (Rat × Rat)) (routes : List Row) : List Row :=
  let mask := (List.range routes.length).filter fun i =>
    inside ((routes.getD i default).lat, (routes.getD i default).long) polygon
  let remove_id := (List.range routes.length).filterMap fun i =>
    if mask.contains i then none else some (routes.getD i default).id
  routes.filter fun r => !remove_id.contains r.id

/-- Method `create_routes` (checks `ais_data`, then `ports`). -/
def CleanAis.create_routes_m (s : CleanAis)
    (inside : Rat × Rat → List (Rat × Rat) → Bool)
    (dist : Rat × Rat → Rat × Rat → Rat) (speed_limit : Rat) :
    CleanAis × Option String :=
  match s.ais_data with
  | none => (s, some (notdefined_msg "ais_data"))
  | some pings =>
    match s.ports with
    | none => (s, some (notdefined_msg "ports"))
    | some ports =>
      let ctx : RoutesCtx := ⟨inside, dist, speed_limit, ports, pings⟩
      ({ s with routes := some (RoutesCtx.routes_rows ctx) }, none)

/-- Method `remove_routes_outside_polygon` (checks `polygon`, then
`routes`). -/
def CleanAis.remove_routes_outside_polygon_m (s : CleanAis)
    (inside : Rat × Rat → List (Rat × Rat) → Bool) :
    CleanAis × Option String :=
  match s.polygon with
  | none => (s, some (notdefined_msg "polygon"))
  | some poly =>
    match s.routes with
    | none => (s, some (notdefined_msg "routes"))
    | some routes =>
      ({ s with routes := some (remove_outside inside poly routes) }, none)

/-- Method `interpolate_routes` (checks `routes`). -/
def CleanAis.interpolate_routes_m (s : CleanAis)
    (inter : Int → List Row → List Row) (interval_s : Int) :
    CleanAis × Option String :=
  match s.routes with
  | none => (s, some (notdefined_msg "routes"))
  | some routes =>
    ({ s with interpolated_routes := some (inter interval_s routes) }, none)

/-- Method `clean_data` (checks `routes`, then `interpolated_routes`). -/
def CleanAis.clean_data_m (s : CleanAis) (inter : Int → List Row → List Row)
    (dist : Rat × Rat → Rat × Rat → Rat) (threshold : Rat) (interval_s : Int)
    (speed : Rat) : CleanAis × Option String :=
  match s.routes with
  | none => (s, some (notdefined_msg "routes"))
  | some routes =>
    match s.interpolated_routes with
    | none => (s, some (notdefined_msg "interpolated_routes"))
    | some interp =>
      let p := clean_data inter dist threshold interval_s speed routes interp
      ({ s with routes := some p.1, interpolated_routes := some p.2 }, none)

/-- Method `create_waypoints` (checks `interpolated_routes`, then
`routes`; only then stores `waypoint_amount` and computes). -/
def CleanAis.create_waypoints_m (s : CleanAis)
    (inter : Int → List Row → List Row) (amount : Nat) :
    CleanAis × Option String :=
  match s.interpolated_routes with
  | none => (s, some (notdefined_msg "interpolated_routes"))
  | some interp =>
    match s.routes with
    | none => (s, some (notdefined_msg "routes"))
    | some routes =>
      let s1 := { s with waypoint_amount := some amount }
      match create_waypoints inter routes interp amount with
      | none => (s1, some "ValueError")
      | some w => ({ s1 with waypoints := some w }, none)

/-- Method `save_routes` via `__save_pickle` (raises when the dataframe is
`None`; the on-disk write is external and the state is unchanged). -/
def CleanAis.save_routes_m (s : CleanAis) : CleanAis × Option String :=
  (s, if s.routes.isSome then none else some (notdefined_msg "routes"))

/-- Method `save_interpolated` via `__save_pickle`. -/
def CleanAis.save_interpolated_m (s : CleanAis) : CleanAis × Option String :=
  (s, if s.interpolated_routes.isSome then none
      else some (notdefined_msg "interpolated_routes"))

/-- Method `save_waypoints` via `__save_pickle`. -/
def CleanAis.save_waypoints_m (s : CleanAis) : CleanAis × Option String :=
  (s, if s.waypoints.isSome then none else some (notdefined_msg "waypoints"))

/-- A synthetic ship for the spec's §8 Voyage Segmenter test: ten pings
outside the port, two docked, ten outside, two docked, ten outside (one
ping per hour; ping 10..11 and 22..23 sit at latitude 20 inside the port). -/
def synthetic_pings : List Ping :=
  (List.range 34).map fun k =>
    { mmsi := 7
      time := (k : Int) * 3600
      lat := if 10 ≤ k ∧ k < 12 then 20 else if 22 ≤ k ∧ k < 24 then 20 else 0
      long := 0
      sog := 5
      cog := 0 }

/-- The synthetic `create_routes` context: one port (the `inside` test is
the half-plane `lat >= 10`), zero haversine distance (every dwell is a
genuine dock), default `speed_limit = 3`. -/
def synthetic_ctx : RoutesCtx :=
  { inside := fun pt _ => decide (10 ≤ pt.1)
    dist := fun _ _ => 0
    speed_limit := 3
    ports := [{ name := "P", locode := "PPP", polygon := [(0, 0)] }]
    pings := synthetic_pings }

/-- C2: `find_centroid` on a degenerate polygon.  The collinear polygon
`[(0,0), (1,1), (2,2)]` has signed area `0`; `find_centroid` does not detect
this, and its unguarded division by `6 * signed_area = 0` silently yields
non-finite coordinates (modelled as `none`) instead of surfacing a
degenerate-geometry error.  This refutes the claim that the condition is
"detected and surfaced" and that NaN/Inf is never produced. -/
theorem find_centroid_zero_area_silently_undefined :
    signedArea [(0, 0), (1, 1), (2, 2)] = 0 ∧
      find_centroid [(0, 0), (1, 1), (2, 2)] = none := by
  constructor <;> decide


/-! ### Generic properties of `split_runs` -/

section SplitRunsLemmas

variable {α : Type} (rel : α → α → Bool)

lemma split_runs_head_cons (y : α) (xs : List α) :
    ∃ t rs, split_runs rel (y :: xs) = (y :: t) :: rs := by
  induction xs generalizing y with
  | nil => exact ⟨[], [], rfl⟩
  | cons z zs ih =>
    obtain ⟨t, rs, ht⟩ := ih z
    by_cases h : rel y z = true
    · exact ⟨z :: t, rs, by simp [split_runs, ht, h]⟩
    · exact ⟨[], (z :: t) :: rs, by simp [split_runs, ht, h]⟩

lemma split_runs_flatten : ∀ l : List α, (split_runs rel l).flatten = l := by
  intro l
  induction l with
  | nil => rfl
  | cons x xs ih =>
    cases xs with
    | nil => rfl
    | cons y ys =>
      obtain ⟨t, rs, ht⟩ := split_runs_head_cons rel y ys
      rw [ht] at ih
      by_cases h : rel x y = true
      · simp only [split_runs, ht, if_pos h]
        simp only [List.flatten_cons] at ih ⊢
        simpa using ih
      · simp only [split_runs, ht, if_neg h]
        simp only [List.flatten_cons] at ih ⊢
        simpa using ih

lemma split_runs_ne_nil {l r : List α} (hr : r ∈ split_runs rel l) :
    r ≠ [] := by
  induction l with
  | nil => simp [split_runs] at hr
  | cons x xs ih =>
    cases xs with
    | nil =>
      simp only [split_runs, List.mem_singleton] at hr
      simp [hr]
    | cons y ys =>
      obtain ⟨t, rs, ht⟩ := split_runs_head_cons rel y ys
      by_cases h : rel x y = true
      · rw [show split_runs rel (x :: y :: ys) = (x :: y :: t) :: rs by
          simp [split_runs, ht, h]] at hr
        rcases List.mem_cons.mp hr with rfl | hmem
        · simp
        · exact ih (ht ▸ List.mem_cons_of_mem _ hmem)
      · rw [show split_runs rel (x :: y :: ys) = [x] :: (y :: t) :: rs by
          simp [split_runs, ht, h]] at hr
        rcases List.mem_cons.mp hr with rfl | hmem
        · simp
        · exact ih (ht ▸ hmem)

lemma split_runs_chain {l : List α} :
    ∀ {r : List α}, r ∈ split_runs rel l →
      r.Chain' (fun a b => rel a b = true) := by
  induction l with
  | nil => intro r hr; simp [split_runs] at hr
  | cons x xs ih =>
    intro r hr
    cases xs with
    | nil =>
      simp only [split_runs, List.mem_singleton] at hr
      simp [hr]
    | cons y ys =>
      obtain ⟨t, rs, ht⟩ := split_runs_head_cons rel y ys
      by_cases h : rel x y = true
      · rw [show split_runs rel (x :: y :: ys) = (x :: y :: t) :: rs by
          simp [split_runs, ht, h]] at hr
        rcases List.mem_cons.mp hr with rfl | hmem
        · have hyt := ih (ht ▸ List.mem_cons_self (y :: t) rs)
          exact List.chain'_cons.mpr ⟨h, hyt⟩
        · exact ih (ht ▸ List.mem_cons_of_mem _ hmem)
      · rw [show split_runs rel (x :: y :: ys) = [x] :: (y :: t) :: rs by
          simp [split_runs, ht, h]] at hr
        rcases List.mem_cons.mp hr with rfl | hmem
        · simp
        · exact ih (ht ▸ hmem)

lemma split_runs_adjacent {a b : α} (hab : rel a b = true) :
    ∀ (l₁ l₂ : List α),
      ∃ r ∈ split_runs rel (l₁ ++ a :: b :: l₂), a ∈ r ∧ b ∈ r := by
  intro l₁
  induction l₁ with
  | nil =>
    intro l₂
    obtain ⟨t, rs, ht⟩ := split_runs_head_cons rel b l₂
    refine ⟨a :: b :: t, ?_, by simp, by simp⟩
    rw [List.nil_append,
      show split_runs rel (a :: b :: l₂) = (a :: b :: t) :: rs by
        simp [split_runs, ht, hab]]
    exact List.mem_cons_self _ _
  | cons c l₁' ih =>
    intro l₂
    obtain ⟨r, hrmem, har, hbr⟩ := ih l₂
    rw [List.cons_append]
    cases hl : l₁' ++ a :: b :: l₂ with
    | nil => simp at hl
    | cons w ws =>
      rw [hl] at hrmem
      obtain ⟨t, rs, ht⟩ := split_runs_head_cons rel w ws
      rw [ht] at hrmem
      rcases List.mem_cons.mp hrmem with rfl | hr2
      · by_cases h : rel c w = true
        · refine ⟨c :: w :: t, ?_, List.mem_cons_of_mem _ har,
            List.mem_cons_of_mem _ hbr⟩
          rw [show split_runs rel (c :: w :: ws) = (c :: w :: t) :: rs by
            simp [split_runs, ht, h]]
          exact List.mem_cons_self _ _
        · refine ⟨w :: t, ?_, har, hbr⟩
          rw [show split_runs rel (c :: w :: ws) = [c] :: (w :: t) :: rs by
            simp [split_runs, ht, h]]
          exact List.mem_cons_of_mem _ (List.mem_cons_self _ _)
      · by_cases h : rel c w = true
        · refine ⟨r, ?_, har, hbr⟩
          rw [show split_runs rel (c :: w :: ws) = (c :: w :: t) :: rs by
            simp [split_runs, ht, h]]
          exact List.mem_cons_of_mem _ hr2
        · refine ⟨r, ?_, har, hbr⟩
          rw [show split_runs rel (c :: w :: ws) = [c] :: (w :: t) :: rs by
            simp [split_runs, ht, h]]
          exact List.mem_cons_of_mem _ (List.mem_cons_of_mem _ hr2)

end SplitRunsLemmas

/-! ### Generic list helpers -/

lemma flatten_pairwise {α : Type} {R : α → α → Prop} :
    ∀ rs : List (List α), rs.flatten.Pairwise R →
      rs.Pairwise fun r s => ∀ x ∈ r, ∀ y ∈ s, R x y := by
  intro rs
  induction rs with
  | nil => intro _; exact List.Pairwise.nil
  | cons s rest ih =>
    intro h
    rw [List.flatten_cons, List.pairwise_append] at h
    obtain ⟨_, h2, h3⟩ := h
    exact List.Pairwise.cons
      (fun r hr x hx y hy => h3 x hx y (List.mem_flatten.mpr ⟨r, hr, hy⟩))
      (ih h2)

lemma flatten_nodup_run_eq {α : Type} :
    ∀ (rs : List (List α)) (r s : List α) (x : α), rs.flatten.Nodup →
      r ∈ rs → s ∈ rs → x ∈ r → x ∈ s → r = s := by
  intro rs
  induction rs with
  | nil => intro r s x _ h; simp at h
  | cons u rest ih =>
    intro r s x hnd hr hs hxr hxs
    rw [List.flatten_cons, List.nodup_append] at hnd
    obtain ⟨_, hnd2, hdisj⟩ := hnd
    rcases List.mem_cons.mp hr with rfl | hr2
    · rcases List.mem_cons.mp hs with rfl | hs2
      · rfl
      · exact absurd (List.mem_flatten.mpr ⟨s, hs2, hxs⟩) (hdisj hxr)
    · rcases List.mem_cons.mp hs with rfl | hs2
      · exact absurd (List.mem_flatten.mpr ⟨r, hr2, hxr⟩) (hdisj hxs)
      · exact ih r s x hnd2 hr2 hs2 hxr hxs

lemma headD_mem {α : Type} {l : List α} (h : l ≠ []) (d : α) :
    l.headD d ∈ l := by
  cases l with
  | nil => exact absurd rfl h
  | cons a t => exact List.mem_cons_self _ _

lemma getLastD_mem {α : Type} :
    ∀ (l : List α) (d : α), l ≠ [] → l.getLastD d ∈ l := by
  intro l
  induction l with
  | nil => intro d h; exact absurd rfl h
  | cons a t ih =>
    intro d _
    rw [List.getLastD_cons]
    cases t with
    | nil => simp [List.getLastD]
    | cons b u => exact List.mem_cons_of_mem _ (ih a (by simp))

lemma pairwise_lt_headD_le {l : List Nat} (h : l.Pairwise (· < ·)) {x : Nat}
    (hx : x ∈ l) : l.headD 0 ≤ x := by
  cases l with
  | nil => simp at hx
  | cons a t =>
    rcases List.mem_cons.mp hx with rfl | hxt
    · simp
    · have := (List.pairwise_cons.mp h).1 x hxt
      simp only [List.headD_cons]
      omega

lemma pairwise_lt_le_getLastD :
    ∀ {l : List Nat}, l.Pairwise (· < ·) → ∀ {x : Nat}, x ∈ l →
      x ≤ l.getLastD 0 := by
  intro l
  induction l with
  | nil => intro _ x hx; simp at hx
  | cons a t ih =>
    intro h x hx
    rw [List.getLastD_cons]
    rcases List.mem_cons.mp hx with rfl | hxt
    · cases t with
      | nil => simp [List.getLastD]
      | cons b u =>
        have hmem := getLastD_mem (b :: u) x (by simp)
        have := (List.pairwise_cons.mp h).1 _ hmem
        omega
    · cases t with
      | nil => simp at hxt
      | cons b u =>
        have hih := ih (List.pairwise_cons.mp h).2 hxt
        rwa [List.getLastD_cons] at hih ⊢

lemma pairwise_eq_headD {α : Type} {f : α → Nat} {l : List α}
    (h : l.Pairwise fun a b => f a = f b) {x : α} (hx : x ∈ l) :
    f (l.headD x) = f x := by
  cases l with
  | nil => simp at hx
  | cons a t =>
    rcases List.mem_cons.mp hx with rfl | hxt
    · rfl
    · exact (List.pairwise_cons.mp h).1 x hxt

lemma sorted_mem_succ_append {l : List Nat} (hs : l.Sorted (· < ·)) {x : Nat}
    (hx : x ∈ l) (hy : x + 1 ∈ l) :
    ∃ l₁ l₂, l = l₁ ++ x :: (x + 1) :: l₂ := by
  induction l with
  | nil => simp at hx
  | cons a t ih =>
    rw [List.sorted_cons] at hs
    obtain ⟨ha, ht⟩ := hs
    rcases List.mem_cons.mp hx with rfl | hxt
    · have hyt : x + 1 ∈ t := by
        rcases List.mem_cons.mp hy with h1 | h1
        · omega
        · exact h1
      cases t with
      | nil => simp at hyt
      | cons b u =>
        have hb : x < b := ha b (List.mem_cons_self _ _)
        rcases List.mem_cons.mp hyt with rfl | h1
        · exact ⟨[], u, rfl⟩
        · rw [List.sorted_cons] at ht
          have := ht.1 _ h1
          omega
    · have hax : a < x := ha x hxt
      have hyt : x + 1 ∈ t := by
        rcases List.mem_cons.mp hy with h1 | h1
        · omega
        · exact h1
      obtain ⟨l₁, l₂, he⟩ := ih ht hxt hyt
      exact ⟨a :: l₁, l₂, by rw [he]; rfl⟩

/-! ### Properties of the first-match-wins assignment -/

lemma find?_eq_some_of_unique {α : Type} {p : α → Bool} {l : List α} {a : α}
    (ha : a ∈ l) (hpa : p a = true) (huniq : ∀ x ∈ l, p x = true → x = a) :
    l.find? p = some a := by
  induction l with
  | nil => simp at ha
  | cons x xs ih =>
    by_cases hx : p x = true
    · have hax := huniq x (List.mem_cons_self x xs) hx
      subst hax
      simp [List.find?_cons_of_pos, hx]
    · rcases List.mem_cons.mp ha with rfl | hmem
      · exact absurd hpa hx
      · rw [List.find?_cons_of_neg _ (by simpa using hx)]
        exact ih hmem fun y hy hpy => huniq y (List.mem_cons_of_mem _ hy) hpy

lemma find?_range_spec {p : Nat → Bool} {n a : Nat}
    (h : (List.range n).find? p = some a) :
    a < n ∧ p a = true ∧ ∀ j < a, p j = false := by
  rcases List.find?_eq_some.mp h with ⟨hpa, as, bs, hsplit, hpre⟩
  have hlen : n = as.length + (bs.length + 1) := by
    have := congrArg List.length hsplit
    simpa [List.length_append, Nat.add_comm, Nat.add_assoc, Nat.add_left_comm]
      using this
  have haslt : as.length < n := by omega
  have h1 : (List.range n).getD as.length 0 = as.length := by
    rw [List.getD_eq_getElem _ _ (by simpa using haslt)]
    exact List.getElem_range _ _
  have h2 : (as ++ a :: bs).getD as.length 0 = a := by
    rw [List.getD_append_right _ _ _ _ (Nat.le_refl _)]
    simp
  have ha : a = as.length := by
    have e : (as ++ a :: bs).getD as.length 0 = (List.range n).getD as.length 0 := by
      rw [hsplit]
    rw [h2, h1] at e
    exact e
  refine ⟨by omega, hpa, ?_⟩
  intro j hj
  have htake : List.range as.length = as := by
    have e := congrArg (List.take as.length) hsplit
    rw [List.take_range, Nat.min_eq_left (Nat.le_of_lt haslt),
      show as.length = as.length from rfl] at e
    rw [e]
    exact List.take_left as (a :: bs)
  have hjmem : j ∈ as := by
    rw [← htake, List.mem_range]
    omega
  have := hpre j hjmem
  simpa using this

/-- `find?` sees through an outer `filter` whenever the sought predicate
entails the filtering predicate. -/
lemma find?_filter_comm {α : Type} (p q : α → Bool) (l : List α)
    (h : ∀ a, q a = true → p a = true) :
    (l.filter p).find? q = l.find? q := by
  induction l with
  | nil => rfl
  | cons x xs ih =>
    by_cases hq : q x = true
    · rw [List.filter_cons_of_pos (h x hq),
        List.find?_cons_of_pos _ hq, List.find?_cons_of_pos _ hq]
    · by_cases hp : p x = true
      · rw [List.filter_cons_of_pos hp, List.find?_cons_of_neg _ hq,
          List.find?_cons_of_neg _ hq]
        exact ih
      · rw [List.filter_cons_of_neg hp, List.find?_cons_of_neg _ hq]
        exact ih

lemma drop_duplicates_aux_subset :
    ∀ (n : Nat) (l : List (Nat × Nat)) (y : Nat × Nat),
      y ∈ drop_duplicates_aux n l → y ∈ l := by
  intro n
  induction n with
  | zero =>
    intro l y hy
    cases l with
    | nil => simp [drop_duplicates_aux] at hy
    | cons x xs => simp [drop_duplicates_aux] at hy
  | succ n ih =>
    intro l y hy
    cases l with
    | nil => simp [drop_duplicates_aux] at hy
    | cons x xs =>
      simp only [drop_duplicates_aux, List.mem_cons] at hy
      rcases hy with rfl | hy
      · exact List.mem_cons_self _ _
      · exact List.mem_cons_of_mem _ (List.mem_of_mem_filter (ih _ _ hy))

lemma drop_duplicates_aux_find? (i : Nat) :
    ∀ (n : Nat) (l : List (Nat × Nat)), l.length ≤ n →
      (drop_duplicates_aux n l).find? (fun r => decide (r.1 = i))
        = l.find? (fun r => decide (r.1 = i)) := by
  intro n
  induction n with
  | zero =>
    intro l hl
    cases l with
    | nil => rfl
    | cons x xs => simp at hl
  | succ n ih =>
    intro l hl
    cases l with
    | nil => rfl
    | cons x xs =>
      by_cases hx : x.1 = i
      · simp only [drop_duplicates_aux]
        rw [List.find?_cons_of_pos _ (by simpa using hx),
          List.find?_cons_of_pos _ (by simpa using hx)]
      · have hlen : (xs.filter fun y => decide (y.1 ≠ x.1)).length ≤ n :=
          le_trans (List.length_filter_le _ _) (by simpa using hl)
        simp only [drop_duplicates_aux]
        rw [List.find?_cons_of_neg _ (by simpa using hx),
          List.find?_cons_of_neg _ (by simpa using hx),
          ih _ hlen,
          find?_filter_comm _ _ _ (fun a ha => ?_)]
        have ha1 : a.1 = i := by simpa using ha
        simp [ha1]
        exact fun h => hx h.symm

lemma drop_duplicates_aux_mem :
    ∀ (n : Nat) (l : List (Nat × Nat)) (y : Nat × Nat), l.length ≤ n →
      y ∈ drop_duplicates_aux n l →
      l.find? (fun r => decide (r.1 = y.1)) = some y := by
  intro n
  induction n with
  | zero =>
    intro l y hl hy
    cases l with
    | nil => simp [drop_duplicates_aux] at hy
    | cons x xs => simp at hl
  | succ n ih =>
    intro l y hl hy
    cases l with
    | nil => simp [drop_duplicates_aux] at hy
    | cons x xs =>
      simp only [drop_duplicates_aux, List.mem_cons] at hy
      rcases hy with rfl | hy
      · rw [List.find?_cons_of_pos _ (by simp)]
      · have hyx : y.1 ≠ x.1 := by
          have hmem := drop_duplicates_aux_subset _ _ _ hy
          simpa using List.of_mem_filter hmem
        have hlen : (xs.filter fun r => decide (r.1 ≠ x.1)).length ≤ n :=
          le_trans (List.length_filter_le _ _) (by simpa using hl)
        have hfind := ih _ y hlen hy
        rw [find?_filter_comm _ _ _ (fun a ha => ?_)] at hfind
        · rw [List.find?_cons_of_neg _ (by simpa using fun h : x.1 = y.1 => hyx h.symm)]
          exact hfind
        · have ha1 : a.1 = y.1 := by simpa using ha
          simp [ha1]
          exact fun h => hyx h

lemma find?_filter_range_eq (q : Nat → Bool) {n i : Nat} (hi : i < n) :
    ((List.range n).filter q).find? (fun k => decide (k = i))
      = if q i = true then some i else none := by
  by_cases hq : q i = true
  · rw [if_pos hq]
    apply find?_eq_some_of_unique
    · exact List.mem_filter.mpr ⟨List.mem_range.mpr hi, hq⟩
    · simp
    · intro x _ hx
      simpa using hx
  · rw [if_neg hq]
    apply List.find?_eq_none.mpr
    intro x hx
    rcases List.mem_filter.mp hx with ⟨_, hqx⟩
    intro hxi
    exact hq (by rwa [show x = i by simpa using hxi] at hqx)

lemma explode_enumFrom_find? (inside : Rat × Rat → List (Rat × Rat) → Bool)
    (lat long : List Rat) (i : Nat) (hi : i < lat.length) :
    ∀ (polys : List (List (Rat × Rat))) (s : Nat),
      (explode_masks ((List.enumFrom s polys).map fun pip =>
          (((List.range lat.length).filter fun k =>
              inside (lat.getD k 0, long.getD k 0) pip.2), pip.1))).find?
          (fun r => decide (r.1 = i))
        = Option.map (fun j => (i, s + j))
            ((List.range polys.length).find? fun j =>
              inside (lat.getD i 0, long.getD i 0) (polys.getD j [])) := by
  intro polys
  induction polys with
  | nil => intro s; rfl
  | cons poly rest ih =>
    intro s
    rw [List.enumFrom_cons]
    simp only [explode_masks, List.map_cons, List.flatten_cons]
    rw [List.find?_append]
    have hblock :
        (((List.range lat.length).filter fun k =>
            inside (lat.getD k 0, long.getD k 0) poly).map fun k => (k, s)).find?
            (fun r => decide (r.1 = i))
          = if inside (lat.getD i 0, long.getD i 0) poly = true
              then some (i, s) else none := by
      rw [List.find?_map]
      have : ((fun r : Nat × Nat => decide (r.1 = i)) ∘ fun k => (k, s))
          = fun k => decide (k = i) := by
        funext k
        rfl
      rw [this, find?_filter_range_eq _ hi]
      by_cases hq : inside (lat.getD i 0, long.getD i 0) poly = true
      · rw [if_pos hq, if_pos hq]; rfl
      · rw [if_neg hq, if_neg hq]; rfl
    by_cases hq : inside (lat.getD i 0, long.getD i 0) poly = true
    · rw [hblock, if_pos hq]
      have hlen : (List.range (poly :: rest).length).find?
          (fun j => inside (lat.getD i 0, long.getD i 0) ((poly :: rest).getD j []))
          = some 0 := by
        rw [List.length_cons, List.range_succ_eq_map]
        exact List.find?_cons_of_pos _ (by simpa using hq)
      rw [hlen]
      simp
    · rw [hblock, if_neg hq]
      rw [Option.none_or]
      have ih1 := ih (s + 1)
      simp only [explode_masks] at ih1
      rw [ih1]
      have hsh : (List.range (poly :: rest).length).find?
          (fun j => inside (lat.getD i 0, long.getD i 0) ((poly :: rest).getD j []))
          = Option.map Nat.succ ((List.range rest.length).find?
              (fun j => inside (lat.getD i 0, long.getD i 0) (rest.getD j []))) := by
        rw [List.length_cons, List.range_succ_eq_map]
        rw [List.find?_cons_of_neg _ (by simpa using hq)]
        rw [List.find?_map]
        congr 1
      rw [hsh]
      cases (List.range rest.length).find?
          (fun j => inside (lat.getD i 0, long.getD i 0) (rest.getD j [])) with
      | none => rfl
      | some j =>
        have : s + 1 + j = s + (j + 1) := by omega
        simp [this]

lemma explode_mask_find? (inside : Rat × Rat → List (Rat × Rat) → Bool)
    (lat long : List Rat) (polys : List (List (Rat × Rat))) {i : Nat}
    (hi : i < lat.length) :
    (explode_masks (mask_from_polygons inside lat long polys)).find?
        (fun r => decide (r.1 = i))
      = Option.map (fun j => (i, j))
          ((List.range polys.length).find? fun j =>
            inside (lat.getD i 0, long.getD i 0) (polys.getD j [])) := by
  unfold mask_from_polygons
  rw [List.enum_eq_enumFrom,
    explode_enumFrom_find? inside lat long i hi polys 0]
  cases (List.range polys.length).find?
      (fun j => inside (lat.getD i 0, long.getD i 0) (polys.getD j [])) with
  | none => rfl
  | some j => simp

lemma exploded_dedup_find? (inside : Rat × Rat → List (Rat × Rat) → Bool)
    (lat long : List Rat) (polys : List (List (Rat × Rat))) {i : Nat}
    (hi : i < lat.length) :
    (exploded_dedup inside lat long polys).find? (fun r => decide (r.1 = i))
      = Option.map (fun j => (i, j))
          ((List.range polys.length).find? fun j =>
            inside (lat.getD i 0, long.getD i 0) (polys.getD j [])) := by
  unfold exploded_dedup drop_duplicates_index
  rw [drop_duplicates_aux_find? i _ _ (Nat.le_refl _)]
  exact explode_mask_find? inside lat long polys hi

lemma assigned_polygon_eq (inside : Rat × Rat → List (Rat × Rat) → Bool)
    (lat long : List Rat) (polys : List (List (Rat × Rat))) {i : Nat}
    (hi : i < lat.length) :
    assigned_polygon inside lat long polys i
      = (List.range polys.length).find? fun j =>
          inside (lat.getD i 0, long.getD i 0) (polys.getD j []) := by
  unfold assigned_polygon
  rw [exploded_dedup_find? inside lat long polys hi]
  cases (List.range polys.length).find?
      (fun j => inside (lat.getD i 0, long.getD i 0) (polys.getD j [])) with
  | none => rfl
  | some j => rfl

/-- C9: in `create_routes`, a ping index contained in more than one port
polygon is assigned, by `explode` followed by `drop_duplicates('index')`,
to the polygon occurring first in the port input order (the least containing
polygon index), and every later match for that ping index is absent from the
deduplicated table. -/
theorem create_routes_overlap_first_match_wins
    (inside : Rat × Rat → List (Rat × Rat) → Bool) (lat long : List Rat)
    (polys : List (List (Rat × Rat))) (i p q : Nat)
    (hi : i < lat.length) (hp : p < polys.length) (_hq : q < polys.length)
    (hpq : p < q)
    (hinp : inside (lat.getD i 0, long.getD i 0) (polys.getD p []) = true)
    (_hinq : inside (lat.getD i 0, long.getD i 0) (polys.getD q []) = true) :
    ∃ p0, assigned_polygon inside lat long polys i = some p0 ∧
      p0 ≤ p ∧ p0 < q ∧
      inside (lat.getD i 0, long.getD i 0) (polys.getD p0 []) = true ∧
      (∀ j < p0, inside (lat.getD i 0, long.getD i 0) (polys.getD j []) = false) ∧
      ∀ r ∈ exploded_dedup inside lat long polys, r.1 = i → r.2 = p0 := by
  have hassigned := assigned_polygon_eq inside lat long polys hi
  have hsome : ((List.range polys.length).find? fun j =>
      inside (lat.getD i 0, long.getD i 0) (polys.getD j [])).isSome = true :=
    List.find?_isSome.mpr ⟨p, List.mem_range.mpr hp, hinp⟩
  rcases Option.isSome_iff_exists.mp hsome with ⟨p0, hp0⟩
  rcases find?_range_spec hp0 with ⟨hp0lt, hp0in, hp0min⟩
  have hp0p : p0 ≤ p := by
    by_contra hgt
    have := hp0min p (by omega)
    rw [this] at hinp
    exact Bool.false_ne_true hinp
  refine ⟨p0, by rw [hassigned, hp0], hp0p, by omega, hp0in, hp0min, ?_⟩
  intro r hr hri
  have hfind : (explode_masks (mask_from_polygons inside lat long polys)).find?
      (fun y => decide (y.1 = r.1)) = some r :=
    drop_duplicates_aux_mem _ _ r (Nat.le_refl _) hr
  rw [hri] at hfind
  have hexp := explode_mask_find? inside lat long polys hi
  rw [hfind, hp0] at hexp
  simp only [Option.map_some'] at hexp
  have : r = (i, p0) := Option.some.inj hexp
  rw [this]

/-- Witness for C9: a point lying inside both of two overlapping polygons is
assigned to the first one. -/
theorem create_routes_overlap_first_match_wins_witness :
    ∃ p0,
      assigned_polygon (fun _ _ => true) [0] [0] [[(0, 0)], [(1, 1)]] 0 = some p0 ∧
      p0 ≤ 0 ∧ p0 < 1 ∧ (true = true) ∧
      (∀ j < p0, true = false) ∧
      ∀ r ∈ exploded_dedup (fun _ _ => true) [0] [0] [[(0, 0)], [(1, 1)]],
        r.1 = 0 → r.2 = p0 :=
  create_routes_overlap_first_match_wins (fun _ _ => true) [0] [0]
    [[(0, 0)], [(1, 1)]] 0 0 1 (by decide) (by decide) (by decide) (by decide)
    rfl rfl

/-! ### Structural facts about the `create_routes` frames -/

lemma chain'_eq_headD {α : Type} (f : α → Nat) :
    ∀ {l : List α}, l.Chain' (fun a b => f a = f b) →
      ∀ x ∈ l, ∀ d, f x = f (l.headD d) := by
  intro l
  induction l with
  | nil => intro _ x hx; simp at hx
  | cons a t ih =>
    intro h x hx d
    rcases List.mem_cons.mp hx with rfl | hxt
    · rfl
    · cases t with
      | nil => simp at hxt
      | cons b u =>
        rcases List.chain'_cons.mp h with ⟨hab, hbu⟩
        have := ih hbu x hxt d
        simpa [hab] using this

lemma RoutesCtx.ships_sorted_le (c : RoutesCtx) : c.ships.Sorted ping_le :=
  List.sorted_insertionSort ping_le c.pings

lemma RoutesCtx.mmsiAt_mono (c : RoutesCtx) {i j : Nat} (hij : i ≤ j)
    (hj : j < c.n) : c.mmsiAt i ≤ c.mmsiAt j := by
  rcases Nat.eq_or_lt_of_le hij with rfl | hlt
  · exact Nat.le_refl _
  · have hi : i < c.n := lt_trans hlt hj
    have hle := List.pairwise_iff_getElem.mp c.ships_sorted_le i j hi hj hlt
    unfold RoutesCtx.mmsiAt RoutesCtx.pingAt
    rw [List.getD_eq_getElem _ _ hi, List.getD_eq_getElem _ _ hj]
    unfold ping_le at hle
    omega

lemma RoutesCtx.mmsi_sandwich (c : RoutesCtx) {i j k : Nat} (h1 : i ≤ j)
    (h2 : j ≤ k) (hk : k < c.n) (heq : c.mmsiAt i = c.mmsiAt k) :
    c.mmsiAt j = c.mmsiAt i := by
  have a1 := c.mmsiAt_mono h1 (lt_of_le_of_lt h2 hk)
  have a2 := c.mmsiAt_mono h2 hk
  omega

lemma RoutesCtx.mem_in_port_idx (c : RoutesCtx) {i : Nat} :
    i ∈ c.in_port_idx ↔ i < c.n ∧ (c.assigned i).isSome = true := by
  unfold RoutesCtx.in_port_idx
  rw [List.mem_filter, List.mem_range]

lemma RoutesCtx.dwell_flatten (c : RoutesCtx) :
    c.dwell_groups.flatten = c.in_port_idx :=
  split_runs_flatten _ _

lemma RoutesCtx.in_port_idx_nodup (c : RoutesCtx) : c.in_port_idx.Nodup :=
  List.Nodup.filter _ (List.nodup_range _)

lemma RoutesCtx.docked_pos_iff (c : RoutesCtx) {i : Nat} :
    c.docked_pos i = true
      ↔ ∃ g ∈ c.dwell_groups, c.docked g = true ∧ i ∈ g := by
  unfold RoutesCtx.docked_pos
  rw [List.any_eq_true]
  constructor
  · rintro ⟨g, hg, hcond⟩
    simp only [Bool.and_eq_true] at hcond
    obtain ⟨h1, h2⟩ := hcond
    exact ⟨g, hg, h1, by simpa using h2⟩
  · rintro ⟨g, hg, h1, h2⟩
    exact ⟨g, hg, by simp [h1, h2]⟩

lemma RoutesCtx.transit_pos_iff (c : RoutesCtx) {i : Nat} :
    c.transit_pos i = true
      ↔ ∃ g ∈ c.dwell_groups, c.docked g = false ∧ i ∈ g := by
  unfold RoutesCtx.transit_pos
  rw [List.any_eq_true]
  constructor
  · rintro ⟨g, hg, hcond⟩
    simp only [Bool.and_eq_true] at hcond
    obtain ⟨h1, h2⟩ := hcond
    exact ⟨g, hg, by simpa using h1, by simpa using h2⟩
  · rintro ⟨g, hg, h1, h2⟩
    exact ⟨g, hg, by simp [h1, h2]⟩

lemma RoutesCtx.docked_pos_iff_assigned (c : RoutesCtx) {i : Nat}
    (hi : i < c.n) :
    c.docked_pos i = true
      ↔ (c.assigned i).isSome = true ∧ c.transit_pos i = false := by
  constructor
  · intro h
    rcases c.docked_pos_iff.mp h with ⟨g, hg, hd, hig⟩
    have him : i ∈ c.in_port_idx := by
      rw [← c.dwell_flatten]
      exact List.mem_flatten.mpr ⟨g, hg, hig⟩
    refine ⟨(c.mem_in_port_idx.mp him).2, ?_⟩
    by_contra htr
    rw [Bool.not_eq_false] at htr
    rcases c.transit_pos_iff.mp htr with ⟨g2, hg2, hd2, hig2⟩
    have hnd : c.dwell_groups.flatten.Nodup := by
      rw [c.dwell_flatten]; exact c.in_port_idx_nodup
    have := flatten_nodup_run_eq c.dwell_groups g g2 i hnd hg hg2 hig hig2
    rw [this, hd2] at hd
    exact Bool.false_ne_true hd
  · rintro ⟨hsome, htr⟩
    have him : i ∈ c.in_port_idx := c.mem_in_port_idx.mpr ⟨hi, hsome⟩
    rw [← c.dwell_flatten] at him
    rcases List.mem_flatten.mp him with ⟨g, hg, hig⟩
    cases hd : c.docked g with
    | true => exact c.docked_pos_iff.mpr ⟨g, hg, hd, hig⟩
    | false =>
      have : c.transit_pos i = true := c.transit_pos_iff.mpr ⟨g, hg, hd, hig⟩
      rw [this] at htr
      exact absurd htr (by simp)

lemma RoutesCtx.mem_routes_pos (c : RoutesCtx) {i : Nat} :
    i ∈ c.routes_pos ↔ i < c.n ∧ c.docked_pos i = false := by
  unfold RoutesCtx.routes_pos
  rw [List.mem_filter, List.mem_range]
  constructor
  · rintro ⟨hi, hcond⟩
    refine ⟨hi, ?_⟩
    by_contra hdp
    rw [Bool.not_eq_false] at hdp
    rcases (c.docked_pos_iff_assigned hi).mp hdp with ⟨hsome, htr⟩
    rw [Bool.or_eq_true, Bool.not_eq_true', htr] at hcond
    rcases hcond with h | h
    · rw [hsome] at h; exact absurd h (by decide)
    · exact absurd h (by decide)
  · rintro ⟨hi, hdp⟩
    refine ⟨hi, ?_⟩
    rw [Bool.or_eq_true, Bool.not_eq_true']
    cases hsome : (c.assigned i).isSome with
    | false => exact Or.inl rfl
    | true =>
      right
      by_contra htr
      have : c.docked_pos i = true :=
        (c.docked_pos_iff_assigned hi).mpr ⟨hsome, Bool.not_eq_true _ ▸ htr⟩
      rw [this] at hdp
      exact absurd hdp (by decide)

lemma RoutesCtx.routes_pos_sorted (c : RoutesCtx) :
    c.routes_pos.Sorted (· < ·) :=
  List.Pairwise.filter _ (List.pairwise_lt_range _)

lemma RoutesCtx.routes_pos_nodup (c : RoutesCtx) : c.routes_pos.Nodup :=
  List.Nodup.filter _ (List.nodup_range _)

lemma RoutesCtx.runs_flatten (c : RoutesCtx) :
    c.runs.flatten = c.routes_pos :=
  split_runs_flatten _ _

lemma RoutesCtx.runs_pairwise_lt (c : RoutesCtx) :
    c.runs.Pairwise fun r s => ∀ x ∈ r, ∀ y ∈ s, x < y :=
  flatten_pairwise _ (by rw [c.runs_flatten]; exact c.routes_pos_sorted)

lemma RoutesCtx.mem_of_mem_run (c : RoutesCtx) {r : List Nat} {i : Nat}
    (hr : r ∈ c.runs) (hi : i ∈ r) : i ∈ c.routes_pos := by
  rw [← c.runs_flatten]
  exact List.mem_flatten.mpr ⟨r, hr, hi⟩

lemma RoutesCtx.run_ne_nil (c : RoutesCtx) {r : List Nat}
    (hr : r ∈ c.runs) : r ≠ [] :=
  split_runs_ne_nil _ hr

lemma RoutesCtx.run_chain (c : RoutesCtx) {r : List Nat} (hr : r ∈ c.runs) :
    r.Chain' fun i j => j = i + 1 ∧ c.mmsiAt i = c.mmsiAt j := by
  have := split_runs_chain _ hr
  refine List.Chain'.imp ?_ this
  intro a b h
  simp only [Bool.and_eq_true] at h
  obtain ⟨h1, h2⟩ := h
  exact ⟨by simpa using h1, by simpa using h2⟩

lemma RoutesCtx.run_pairwise_lt (c : RoutesCtx) {r : List Nat}
    (hr : r ∈ c.runs) : r.Pairwise (· < ·) := by
  have h2 : r.Chain' (fun i j => i < j) :=
    (c.run_chain hr).imp fun a b h => by omega
  exact List.chain'_iff_pairwise.mp h2

lemma RoutesCtx.run_mmsi_const (c : RoutesCtx) {r : List Nat}
    (hr : r ∈ c.runs) {x : Nat} (hx : x ∈ r) :
    c.mmsiAt x = c.run_mmsi r := by
  have hch : r.Chain' fun i j => c.mmsiAt i = c.mmsiAt j :=
    (c.run_chain hr).imp fun a b h => h.2
  have := chain'_eq_headD c.mmsiAt hch x hx 0
  unfold RoutesCtx.run_mmsi
  exact this

lemma RoutesCtx.mem_kept_runs (c : RoutesCtx) {r : List Nat} :
    r ∈ c.kept_runs ↔ r ∈ c.runs ∧ 10 ≤ r.length := by
  unfold RoutesCtx.kept_runs
  rw [List.mem_filter]
  simp

lemma RoutesCtx.kept_pairwise_lt (c : RoutesCtx) :
    c.kept_runs.Pairwise fun r s => ∀ x ∈ r, ∀ y ∈ s, x < y :=
  List.Pairwise.sublist (List.filter_sublist _) c.runs_pairwise_lt

lemma RoutesCtx.mem_survivors (c : RoutesCtx) {r : List Nat} :
    r ∈ c.survivors
      ↔ r ∈ c.kept_runs ∧ c.first_kept (c.run_mmsi r) ≠ some r
          ∧ c.last_kept (c.run_mmsi r) ≠ some r := by
  unfold RoutesCtx.survivors
  rw [List.mem_filter]
  simp

lemma RoutesCtx.exists_earlier_kept (c : RoutesCtx) {r : List Nat}
    (hr : r ∈ c.kept_runs) (hne : c.first_kept (c.run_mmsi r) ≠ some r) :
    ∃ s ∈ c.kept_runs, c.run_mmsi s = c.run_mmsi r ∧
      ∀ x ∈ s, ∀ y ∈ r, x < y := by
  have hsome : (c.first_kept (c.run_mmsi r)).isSome = true := by
    unfold RoutesCtx.first_kept
    rw [List.find?_isSome]
    exact ⟨r, hr, by simp⟩
  rcases Option.isSome_iff_exists.mp hsome with ⟨r0, hr0⟩
  have hr0ne : r0 ≠ r := fun h => hne (h ▸ hr0)
  have hfind := hr0
  unfold RoutesCtx.first_kept at hfind
  rcases List.find?_eq_some.mp hfind with ⟨hp0, as, bs, hsplit, hpre⟩
  have hrbs : r ∈ bs := by
    have hrmem := hr
    rw [hsplit] at hrmem
    rcases List.mem_append.mp hrmem with has | hcons
    · have := hpre r has
      simp at this
    · rcases List.mem_cons.mp hcons with rfl | h
      · exact absurd rfl hr0ne
      · exact h
  have hpw := c.kept_pairwise_lt
  rw [hsplit, List.pairwise_append] at hpw
  have hcross := (List.pairwise_cons.mp hpw.2.1).1 r hrbs
  refine ⟨r0, ?_, by simpa using hp0, hcross⟩
  rw [hsplit]
  exact List.mem_append.mpr (Or.inr (List.mem_cons_self _ _))

lemma RoutesCtx.exists_later_kept (c : RoutesCtx) {r : List Nat}
    (hr : r ∈ c.kept_runs) (hne : c.last_kept (c.run_mmsi r) ≠ some r) :
    ∃ s ∈ c.kept_runs, c.run_mmsi s = c.run_mmsi r ∧
      ∀ x ∈ r, ∀ y ∈ s, x < y := by
  have hsome : (c.last_kept (c.run_mmsi r)).isSome = true := by
    unfold RoutesCtx.last_kept
    rw [List.find?_isSome]
    exact ⟨r, List.mem_reverse.mpr hr, by simp⟩
  rcases Option.isSome_iff_exists.mp hsome with ⟨r1, hr1⟩
  have hr1ne : r1 ≠ r := fun h => hne (h ▸ hr1)
  have hfind := hr1
  unfold RoutesCtx.last_kept at hfind
  rcases List.find?_eq_some.mp hfind with ⟨hp1, as, bs, hsplit, hpre⟩
  have hk : c.kept_runs = bs.reverse ++ r1 :: as.reverse := by
    have h2 := congrArg List.reverse hsplit
    rw [List.reverse_reverse] at h2
    rw [h2]
    simp [List.reverse_append]
  have hrbs : r ∈ bs.reverse := by
    have hrrev : r ∈ c.kept_runs.reverse := List.mem_reverse.mpr hr
    rw [hsplit] at hrrev
    rcases List.mem_append.mp hrrev with has | hcons
    · have := hpre r has
      simp at this
    · rcases List.mem_cons.mp hcons with rfl | h
      · exact absurd rfl hr1ne
      · exact List.mem_reverse.mpr h
  have hpw := c.kept_pairwise_lt
  rw [hk, List.pairwise_append] at hpw
  have hcross := hpw.2.2 r hrbs r1 (List.mem_cons_self _ _)
  refine ⟨r1, ?_, by simpa using hp1, hcross⟩
  rw [hk]
  exact List.mem_append.mpr (Or.inr (List.mem_cons_self _ _))

/-- The central safety fact for the origin/destination attribution: every
surviving voyage is immediately preceded and followed, at positional
distance one, by a genuinely docked same-ship ping. -/
lemma RoutesCtx.survivor_adjacent (c : RoutesCtx) {r : List Nat}
    (hr : r ∈ c.survivors) :
    1 ≤ r.headD 0 ∧ r.headD 0 < c.n ∧ r.getLastD 0 + 1 < c.n ∧
      c.docked_pos (r.headD 0 - 1) = true ∧
      c.docked_pos (r.getLastD 0 + 1) = true ∧
      c.mmsiAt (r.headD 0 - 1) = c.run_mmsi r ∧
      c.mmsiAt (r.getLastD 0 + 1) = c.run_mmsi r := by
  rcases c.mem_survivors.mp hr with ⟨hk, hnf, hnl⟩
  have hruns : r ∈ c.runs := (c.mem_kept_runs.mp hk).1
  have hne : r ≠ [] := c.run_ne_nil hruns
  have hfr : r.headD 0 ∈ r := headD_mem hne 0
  have hlr : r.getLastD 0 ∈ r := getLastD_mem r 0 hne
  have hfpos : r.headD 0 ∈ c.routes_pos := c.mem_of_mem_run hruns hfr
  have hlpos : r.getLastD 0 ∈ c.routes_pos := c.mem_of_mem_run hruns hlr
  have hfn : r.headD 0 < c.n := (c.mem_routes_pos.mp hfpos).1
  have hpw := c.run_pairwise_lt hruns
  have hmmsif : c.mmsiAt (r.headD 0) = c.run_mmsi r := c.run_mmsi_const hruns hfr
  have hmmsil : c.mmsiAt (r.getLastD 0) = c.run_mmsi r := c.run_mmsi_const hruns hlr
  obtain ⟨s0, hs0k, hs0m, hs0lt⟩ := c.exists_earlier_kept hk hnf
  obtain ⟨s1, hs1k, hs1m, hs1lt⟩ := c.exists_later_kept hk hnl
  have hs0runs : s0 ∈ c.runs := (c.mem_kept_runs.mp hs0k).1
  have hs1runs : s1 ∈ c.runs := (c.mem_kept_runs.mp hs1k).1
  have hs0ne : s0 ≠ [] := c.run_ne_nil hs0runs
  have hs1ne : s1 ≠ [] := c.run_ne_nil hs1runs
  have hjs0 : s0.headD 0 ∈ s0 := headD_mem hs0ne 0
  have hjlt : s0.headD 0 < r.headD 0 := hs0lt _ hjs0 _ hfr
  have hjm : c.mmsiAt (s0.headD 0) = c.run_mmsi r := by
    rw [← hs0m]
    exact c.run_mmsi_const hs0runs hjs0
  have hks1 : s1.headD 0 ∈ s1 := headD_mem hs1ne 0
  have hkgt : r.getLastD 0 < s1.headD 0 := hs1lt _ hlr _ hks1
  have hkm : c.mmsiAt (s1.headD 0) = c.run_mmsi r := by
    rw [← hs1m]
    exact c.run_mmsi_const hs1runs hks1
  have hkn : s1.headD 0 < c.n :=
    (c.mem_routes_pos.mp (c.mem_of_mem_run hs1runs hks1)).1
  have hfpos1 : 1 ≤ r.headD 0 := by omega
  have hlen : r.getLastD 0 + 1 < c.n := by omega
  have hmf1 : c.mmsiAt (r.headD 0 - 1) = c.run_mmsi r := by
    have := c.mmsi_sandwich (show s0.headD 0 ≤ r.headD 0 - 1 by omega)
      (show r.headD 0 - 1 ≤ r.headD 0 by omega) hfn
      (by rw [hjm, hmmsif])
    rw [this, hjm]
  have hml1 : c.mmsiAt (r.getLastD 0 + 1) = c.run_mmsi r := by
    have := c.mmsi_sandwich (show r.getLastD 0 ≤ r.getLastD 0 + 1 by omega)
      (show r.getLastD 0 + 1 ≤ s1.headD 0 by omega) hkn
      (by rw [hmmsil, hkm])
    rw [this, hmmsil]
  have hnd : c.runs.flatten.Nodup := by
    rw [c.runs_flatten]
    exact c.routes_pos_nodup
  have hf1not : r.headD 0 - 1 ∉ c.routes_pos := by
    intro hmem
    have hrel : (fun i j => j == i + 1 && c.mmsiAt i == c.mmsiAt j)
        (r.headD 0 - 1) (r.headD 0) = true := by
      simp only [Bool.and_eq_true, beq_iff_eq]
      exact ⟨by omega, by rw [hmf1, hmmsif]⟩
    have hsucc : (r.headD 0 - 1) + 1 ∈ c.routes_pos := by
      rw [show r.headD 0 - 1 + 1 = r.headD 0 by omega]
      exact hfpos
    obtain ⟨l₁, l₂, hdec⟩ :=
      sorted_mem_succ_append c.routes_pos_sorted hmem hsucc
    rw [show r.headD 0 - 1 + 1 = r.headD 0 by omega] at hdec
    have hadj := split_runs_adjacent
      (fun i j => j == i + 1 && c.mmsiAt i == c.mmsiAt j) hrel l₁ l₂
    rw [← hdec] at hadj
    obtain ⟨r2, hr2runs, hin1, hin2⟩ := hadj
    have hr2r : r2 = r := flatten_nodup_run_eq c.runs r2 r (r.headD 0) hnd
      hr2runs hruns hin2 hfr
    rw [hr2r] at hin1
    have := pairwise_lt_headD_le hpw hin1
    omega
  have hl1not : r.getLastD 0 + 1 ∉ c.routes_pos := by
    intro hmem
    have hrel : (fun i j => j == i + 1 && c.mmsiAt i == c.mmsiAt j)
        (r.getLastD 0) (r.getLastD 0 + 1) = true := by
      simp only [Bool.and_eq_true, beq_iff_eq]
      exact ⟨trivial, by rw [hml1, hmmsil]⟩
    obtain ⟨l₁, l₂, hdec⟩ :=
      sorted_mem_succ_append c.routes_pos_sorted hlpos hmem
    have hadj := split_runs_adjacent
      (fun i j => j == i + 1 && c.mmsiAt i == c.mmsiAt j) hrel l₁ l₂
    rw [← hdec] at hadj
    obtain ⟨r2, hr2runs, hin1, hin2⟩ := hadj
    have hr2r : r2 = r := flatten_nodup_run_eq c.runs r2 r (r.getLastD 0) hnd
      hr2runs hruns hin1 hlr
    rw [hr2r] at hin2
    have := pairwise_lt_le_getLastD hpw hin2
    omega
  have hdf : c.docked_pos (r.headD 0 - 1) = true := by
    by_contra hd
    rw [Bool.not_eq_true] at hd
    exact hf1not (c.mem_routes_pos.mpr ⟨by omega, hd⟩)
  have hdl : c.docked_pos (r.getLastD 0 + 1) = true := by
    by_contra hd
    rw [Bool.not_eq_true] at hd
    exact hl1not (c.mem_routes_pos.mpr ⟨hlen, hd⟩)
  exact ⟨hfpos1, hfn, hlen, hdf, hdl, hmf1, hml1⟩

lemma RoutesCtx.assigned_lt (c : RoutesCtx) {i p : Nat} (hi : i < c.n)
    (h : c.assigned i = some p) : p < c.ports.length := by
  unfold RoutesCtx.assigned at h
  rw [assigned_polygon_eq _ _ _ _
    (by simpa [RoutesCtx.n, RoutesCtx.ships] using hi)] at h
  have hmem := List.mem_of_find?_eq_some h
  have := List.mem_range.mp hmem
  simpa using this

lemma RoutesCtx.locodeAt_isSome (c : RoutesCtx) {i : Nat} (hi : i < c.n)
    (hd : c.docked_pos i = true) : (c.locodeAt i).isSome = true := by
  have hsome := ((c.docked_pos_iff_assigned hi).mp hd).1
  rcases Option.isSome_iff_exists.mp hsome with ⟨p, hp⟩
  have hplt := c.assigned_lt hi hp
  unfold RoutesCtx.locodeAt
  rw [hp]
  simp [List.getElem?_eq_getElem hplt]

/-- C1: in `create_routes`, for every surviving voyage the off-by-one
lookups `in_port.loc[first - 1]` and `in_port.loc[last + 1]` are always in
range (both labels are positions of genuinely docked pings of the same
ship, so no KeyError and no negative label occurs), and the attributed
origin/destination locodes are exactly the locodes of those adjacent dock
pings — the dock events immediately preceding and following the voyage for
that ship.  In particular no surviving voyage lacks a bounding dock event,
and none is silently attributed to an incorrect port. -/
theorem create_routes_attribution_in_range_and_correct (c : RoutesCtx)
    (v : Voyage) (hv : v ∈ create_routes c) :
    1 ≤ v.run.headD 0 ∧ v.run.getLastD 0 + 1 < c.n ∧
      c.docked_pos (v.run.headD 0 - 1) = true ∧
      c.docked_pos (v.run.getLastD 0 + 1) = true ∧
      c.mmsiAt (v.run.headD 0 - 1) = c.run_mmsi v.run ∧
      c.mmsiAt (v.run.getLastD 0 + 1) = c.run_mmsi v.run ∧
      v.from_locode = c.locodeAt (v.run.headD 0 - 1) ∧
      v.from_locode.isSome = true ∧
      v.to_locode = c.locodeAt (v.run.getLastD 0 + 1) ∧
      v.to_locode.isSome = true := by
  unfold create_routes at hv
  rcases List.mem_map.mp hv with ⟨r, hrs, rfl⟩
  obtain ⟨h1, hfn, h2, h3, h4, h5, h6⟩ := c.survivor_adjacent hrs
  have hrun : (c.voyage_of r).run = r := rfl
  rw [hrun]
  have hfrom : (c.voyage_of r).from_locode = c.locodeAt (r.headD 0 - 1) := by
    unfold RoutesCtx.voyage_of RoutesCtx.in_port_locode
    rw [if_pos (show (0 : Int) ≤ (r.headD 0 : Int) - 1 by omega)]
    have ht : ((r.headD 0 : Int) - 1).toNat = r.headD 0 - 1 := by omega
    rw [ht]
  have hto : (c.voyage_of r).to_locode = c.locodeAt (r.getLastD 0 + 1) := by
    unfold RoutesCtx.voyage_of RoutesCtx.in_port_locode
    rw [if_pos (show (0 : Int) ≤ (r.getLastD 0 : Int) + 1 by omega)]
    have ht : ((r.getLastD 0 : Int) + 1).toNat = r.getLastD 0 + 1 := by omega
    rw [ht]
  refine ⟨h1, h2, h3, h4, h5, h6, hfrom, ?_, hto, ?_⟩
  · rw [hfrom]
    exact c.locodeAt_isSome (by omega) h3
  · rw [hto]
    exact c.locodeAt_isSome h2 h4

/-- C5: `create_routes` keeps exactly the runs with at least 10 points that
are neither the earliest nor the latest kept voyage of their ship: a run
survives iff it is a voyage run, has `>= 10` points, and some kept voyage
of the same ship lies entirely before it and another entirely after it.
Consequently the synthetic out/dock/out/dock/out ship yields exactly one
surviving voyage. -/
theorem create_routes_short_and_first_last_dropped :
    (∀ (c : RoutesCtx) (r : List Nat),
      r ∈ c.survivors ↔
        r ∈ c.runs ∧ 10 ≤ r.length ∧
          (∃ s ∈ c.kept_runs, c.run_mmsi s = c.run_mmsi r ∧
            ∀ x ∈ s, ∀ y ∈ r, x < y) ∧
          (∃ s ∈ c.kept_runs, c.run_mmsi s = c.run_mmsi r ∧
            ∀ x ∈ r, ∀ y ∈ s, x < y)) ∧
      (create_routes synthetic_ctx).length = 1 := by
  constructor
  · intro c r
    constructor
    · intro hr
      rcases c.mem_survivors.mp hr with ⟨hk, hnf, hnl⟩
      rcases c.mem_kept_runs.mp hk with ⟨hruns, hlen⟩
      exact ⟨hruns, hlen, c.exists_earlier_kept hk hnf,
        c.exists_later_kept hk hnl⟩
    · rintro ⟨hruns, hlen, ⟨s0, hs0k, hs0m, hs0lt⟩, ⟨s1, hs1k, hs1m, hs1lt⟩⟩
      have hk : r ∈ c.kept_runs := c.mem_kept_runs.mpr ⟨hruns, hlen⟩
      have hrne : r ≠ [] := c.run_ne_nil hruns
      have hs0ne : s0 ≠ [] := c.run_ne_nil (c.mem_kept_runs.mp hs0k).1
      have hs1ne : s1 ≠ [] := c.run_ne_nil (c.mem_kept_runs.mp hs1k).1
      refine c.mem_survivors.mpr ⟨hk, ?_, ?_⟩
      · intro heq
        unfold RoutesCtx.first_kept at heq
        rcases List.find?_eq_some.mp heq with ⟨_, as, bs, hsplit, hpre⟩
        have hs0bs : s0 = r ∨ s0 ∈ bs := by
          have hmem := hs0k
          rw [hsplit] at hmem
          rcases List.mem_append.mp hmem with has | hcons
          · have := hpre s0 has
            simp [hs0m] at this
          · exact List.mem_cons.mp hcons
        rcases hs0bs with rfl | hs0bs
        · have := hs0lt _ (headD_mem hrne 0) _ (headD_mem hrne 0)
          omega
        · have hpw := c.kept_pairwise_lt
          rw [hsplit, List.pairwise_append] at hpw
          have hcross := (List.pairwise_cons.mp hpw.2.1).1 s0 hs0bs
          have ha := hcross _ (headD_mem hrne 0) _ (headD_mem hs0ne 0)
          have hb := hs0lt _ (headD_mem hs0ne 0) _ (headD_mem hrne 0)
          omega
      · intro heq
        unfold RoutesCtx.last_kept at heq
        rcases List.find?_eq_some.mp heq with ⟨_, as, bs, hsplit, hpre⟩
        have hkeq : c.kept_runs = bs.reverse ++ r :: as.reverse := by
          have h2 := congrArg List.reverse hsplit
          rw [List.reverse_reverse] at h2
          rw [h2]
          simp [List.reverse_append]
        have hs1bs : s1 = r ∨ s1 ∈ bs.reverse := by
          have hmem : s1 ∈ c.kept_runs.reverse := List.mem_reverse.mpr hs1k
          rw [hsplit] at hmem
          rcases List.mem_append.mp hmem with has | hcons
          · have := hpre s1 has
            simp [hs1m] at this
          · rcases List.mem_cons.mp hcons with rfl | h
            · exact Or.inl rfl
            · exact Or.inr (List.mem_reverse.mpr h)
        rcases hs1bs with rfl | hs1bs
        · have := hs1lt _ (headD_mem hrne 0) _ (headD_mem hrne 0)
          omega
        · have hpw := c.kept_pairwise_lt
          rw [hkeq, List.pairwise_append] at hpw
          have hcross := hpw.2.2 s1 hs1bs r (List.mem_cons_self _ _)
          have ha := hcross _ (headD_mem hs1ne 0) _ (headD_mem hrne 0)
          have hb := hs1lt _ (headD_mem hrne 0) _ (headD_mem hs1ne 0)
          omega
  · decide

/-- Witness for C1 at the synthetic ship: the single surviving voyage
`[12..21]` is bounded by the docked pings 11 and 22 of the same ship, and
both locode lookups resolve to the port. -/
theorem create_routes_attribution_witness :
    (⟨[12, 13, 14, 15, 16, 17, 18, 19, 20, 21], some "PPP", some "PPP"⟩ :
        Voyage) ∈ create_routes synthetic_ctx ∧
      (1 ≤ (12 : Nat) ∧ 21 + 1 < synthetic_ctx.n ∧
        synthetic_ctx.docked_pos 11 = true ∧
        synthetic_ctx.docked_pos 22 = true ∧
        synthetic_ctx.mmsiAt 11 =
          synthetic_ctx.run_mmsi [12, 13, 14, 15, 16, 17, 18, 19, 20, 21] ∧
        synthetic_ctx.mmsiAt 22 =
          synthetic_ctx.run_mmsi [12, 13, 14, 15, 16, 17, 18, 19, 20, 21] ∧
        some "PPP" = synthetic_ctx.locodeAt 11 ∧
        (some "PPP").isSome = true ∧
        some "PPP" = synthetic_ctx.locodeAt 22 ∧
        (some "PPP").isSome = true) :=
  ⟨by decide,
    create_routes_attribution_in_range_and_correct synthetic_ctx
      ⟨[12, 13, 14, 15, 16, 17, 18, 19, 20, 21], some "PPP", some "PPP"⟩
      (by decide)⟩

/-- Witness for C5: the synthetic surviving run `[12..21]` satisfies the
characterization (its ship has a kept voyage entirely before and one
entirely after). -/
theorem create_routes_short_and_first_last_dropped_witness :
    [12, 13, 14, 15, 16, 17, 18, 19, 20, 21] ∈ synthetic_ctx.runs ∧
      10 ≤ ([12, 13, 14, 15, 16, 17, 18, 19, 20, 21] : List Nat).length ∧
      (∃ s ∈ synthetic_ctx.kept_runs,
        synthetic_ctx.run_mmsi s =
          synthetic_ctx.run_mmsi [12, 13, 14, 15, 16, 17, 18, 19, 20, 21] ∧
        ∀ x ∈ s, ∀ y ∈ [12, 13, 14, 15, 16, 17, 18, 19, 20, 21], x < y) ∧
      (∃ s ∈ synthetic_ctx.kept_runs,
        synthetic_ctx.run_mmsi s =
          synthetic_ctx.run_mmsi [12, 13, 14, 15, 16, 17, 18, 19, 20, 21] ∧
        ∀ x ∈ [12, 13, 14, 15, 16, 17, 18, 19, 20, 21], ∀ y ∈ s, x < y) :=
  (create_routes_short_and_first_last_dropped.1 synthetic_ctx _).mp (by decide)

/-! ### `clean_data`: the two whole-voyage removal passes -/

lemma zip_tail_any {α : Type} :
    ∀ (l : List α) (p : α × α → Bool),
      (l.zip l.tail).any p = true
        ↔ ∃ i, ∃ h : i + 1 < l.length, p (l[i], l[i + 1]) = true := by
  intro l
  induction l with
  | nil => intro p; simp
  | cons a t ih =>
    intro p
    cases t with
    | nil => simp
    | cons b u =>
      rw [show (a :: b :: u).tail = b :: u from rfl, List.zip_cons_cons,
        List.any_cons, Bool.or_eq_true]
      constructor
      · rintro (h0 | hrest)
        · exact ⟨0, by simp, by simpa using h0⟩
        · rcases (ih p).mp hrest with ⟨i, h, hp⟩
          refine ⟨i + 1, ?_, ?_⟩
          · simp only [List.length_cons] at h ⊢
            omega
          · simpa using hp
      · rintro ⟨i, h, hp⟩
        cases i with
        | zero => exact Or.inl (by simpa using hp)
        | succ j =>
          refine Or.inr ((ih p).mpr ⟨j, ?_, ?_⟩)
          · simp only [List.length_cons] at h ⊢
            omega
          · simpa using hp

lemma stationary_id_iff (dist : Rat × Rat → Rat × Rat → Rat)
    (threshold : Rat) (grid : List Row) (v : Nat) :
    stationary_id dist threshold grid v = true
      ↔ has_close_consecutive_pair dist threshold grid v := by
  unfold stationary_id id_pairs has_close_consecutive_pair
  rw [List.any_map, zip_tail_any]
  constructor
  · rintro ⟨i, h, hp⟩
    exact ⟨i, h, by simpa using hp⟩
  · rintro ⟨i, h, hp⟩
    exact ⟨i, h, by simpa using hp⟩

/-- C3: in the stationarity pass of `clean_data`, a row of the raw routes
(resp. of the interpolated routes) survives iff its voyage id has no
consecutive pair of grid points, on the `interval_s` resampling of the
interpolated routes, at haversine distance strictly below `threshold`;
whole voyages are removed from both dataframes and every other voyage is
retained by this pass. -/
theorem clean_data_stationarity_whole_voyage
    (inter : Int → List Row → List Row) (dist : Rat × Rat → Rat × Rat → Rat)
    (threshold : Rat) (interval_s : Int) (routes interp : List Row)
    (row : Row) :
    (row ∈ (clean_data_pass1 inter dist threshold interval_s routes interp).1
      ↔ row ∈ routes ∧
          ¬ has_close_consecutive_pair dist threshold (inter interval_s interp)
              row.id) ∧
    (row ∈ (clean_data_pass1 inter dist threshold interval_s routes interp).2
      ↔ row ∈ interp ∧
          ¬ has_close_consecutive_pair dist threshold (inter interval_s interp)
              row.id) := by
  unfold clean_data_pass1
  constructor
  · rw [List.mem_filter]
    constructor
    · rintro ⟨h1, h2⟩
      refine ⟨h1, fun hcp => ?_⟩
      rw [← stationary_id_iff] at hcp
      rw [hcp] at h2
      exact absurd h2 (by decide)
    · rintro ⟨h1, h2⟩
      refine ⟨h1, ?_⟩
      rw [← stationary_id_iff] at h2
      simp only [Bool.not_eq_true] at h2 ⊢
      simp [h2]
  · rw [List.mem_filter]
    constructor
    · rintro ⟨h1, h2⟩
      refine ⟨h1, fun hcp => ?_⟩
      rw [← stationary_id_iff] at hcp
      rw [hcp] at h2
      exact absurd h2 (by decide)
    · rintro ⟨h1, h2⟩
      refine ⟨h1, ?_⟩
      rw [← stationary_id_iff] at h2
      simp only [Bool.not_eq_true] at h2 ⊢
      simp [h2]

/-! ### `__waypoints`: bucket widths, counts, and the zero-width case -/

lemma foldl_max_ge : ∀ (ts : List Int) (t : Int), t ≤ ts.foldl max t := by
  intro ts
  induction ts with
  | nil => intro t; exact le_refl _
  | cons u us ih =>
    intro t
    exact le_trans (le_max_left t u) (ih (max t u))

lemma foldl_min_le : ∀ (ts : List Int) (t : Int), ts.foldl min t ≤ t := by
  intro ts
  induction ts with
  | nil => intro t; exact le_refl _
  | cons u us ih =>
    intro t
    exact le_trans (ih (min t u)) (min_le_left t u)

lemma min_time_le_max_time (route : List Row) (v : Nat) :
    min_time route v ≤ max_time route v := by
  unfold min_time max_time
  cases h : (route.filter fun r => r.id == v).map (·.time) with
  | nil => exact le_refl 0
  | cons t ts => exact le_trans (foldl_min_le ts t) (foldl_max_ge ts t)

lemma dedup_first_subset {α : Type} [DecidableEq α] :
    ∀ (l : List α) (y : α), y ∈ dedup_first l → y ∈ l := by
  intro l
  induction l with
  | nil => intro y hy; simp [dedup_first] at hy
  | cons x xs ih =>
    intro y hy
    simp only [dedup_first] at hy
    rcases List.mem_cons.mp hy with rfl | hy2
    · exact List.mem_cons_self _ _
    · exact List.mem_cons_of_mem _ (ih y (List.mem_of_mem_filter hy2))

lemma dedup_first_nodup {α : Type} [DecidableEq α] :
    ∀ l : List α, (dedup_first l).Nodup := by
  intro l
  induction l with
  | nil => simp [dedup_first]
  | cons x xs ih =>
    simp only [dedup_first]
    rw [List.nodup_cons]
    refine ⟨?_, List.Nodup.filter _ ih⟩
    intro hx
    have := List.of_mem_filter hx
    simp at this

lemma wp_keys_count_le (route : List Row) (points : Nat) (v : Nat) :
    ((wp_keys route points).filter fun k => k.1 == v).length
      ≤ (route.filter fun r => r.id == v).length := by
  have hnd : ((wp_keys route points).filter fun k => k.1 == v).Nodup :=
    List.Nodup.filter _ (dedup_first_nodup _)
  have hsub : ((wp_keys route points).filter fun k => k.1 == v)
      ⊆ (route.filter fun r => r.id == v).filterMap fun r =>
          (bucket_time route points r).map fun t => (r.id, t) := by
    intro k hk
    have hk1 : (k.1 == v) = true := (List.mem_filter.mp hk).2
    have hkm : k ∈ wp_keys route points := (List.mem_filter.mp hk).1
    have hkm2 := dedup_first_subset _ _ hkm
    rcases List.mem_filterMap.mp hkm2 with ⟨r, hr, hfr⟩
    rcases Option.map_eq_some'.mp hfr with ⟨t, _, hkt⟩
    apply List.mem_filterMap.mpr
    refine ⟨r, List.mem_filter.mpr ⟨hr, ?_⟩, hfr⟩
    have hrid : r.id = k.1 := by rw [← hkt]
    simp only [beq_iff_eq] at hk1 ⊢
    rw [hrid, hk1]
  exact le_trans (List.Subperm.length_le (hnd.subperm hsub))
    (List.length_filterMap_le _ _)

/-- C6 counterexample: `__waypoints` can emit more than `points` waypoints
for a voyage.  A 3-second voyage with 4 grid rows and `points = 3` gets
bucket width `f = floor(3/(3-1)) = 1` second and 4 distinct buckets, so 4
waypoints are produced, refuting "every voyage yields at most N
waypoints". -/
theorem waypoints_count_exceeds_amount_cex :
    (waypoints_fn c6_route 3).length = 4 ∧
      ¬ (waypoints_fn c6_route 3).length ≤ 3 := by
  constructor <;> decide

/-- C6 (amended): the bucketing of `__waypoints` groups a voyage's rows by
the timestamp `t0 + floor((t - t0) / f) * f`, where `t0` is the voyage's
min time floored to the day and `f` is `(max - min) / (points - 1)`
*floored to whole seconds*; lat/long/sog/cog are averaged per
`(id, bucket)` group (`wp_grouped`).  The voyage yields at most as many
waypoint keys as it has grid rows — but not, in general, at most
`points`. -/
theorem waypoints_bucket_formula_and_count
    (route : List Row) (points : Nat) (v : Nat) (r : Row)
    (hid : r.id = v) (hf : bucket_f route points v ≠ 0) :
    bucket_time route points r
      = some (bucket_t0 route v
          + Int.fdiv (r.time - bucket_t0 route v) (bucket_f route points v)
            * bucket_f route points v) ∧
    ((wp_keys route points).filter fun k => k.1 == v).length
      ≤ (route.filter fun r => r.id == v).length := by
  constructor
  · unfold bucket_time
    rw [hid]
    simp [hf]
  · exact wp_keys_count_le route points v

/-- Witness for C6 (amended) at the 3-second voyage. -/
theorem waypoints_bucket_formula_and_count_witness :
    bucket_time c6_route 3 ⟨0, 1, 0, 0, 0, 0, 0, "AAA", "BBB", 0, 0, 0, 0, 0⟩
      = some (bucket_t0 c6_route 0
          + Int.fdiv ((0 : Int) - bucket_t0 c6_route 0) (bucket_f c6_route 3 0)
            * bucket_f c6_route 3 0) ∧
    ((wp_keys c6_route 3).filter fun k => k.1 == 0).length
      ≤ (c6_route.filter fun r => r.id == 0).length :=
  waypoints_bucket_formula_and_count c6_route 3 0
    ⟨0, 1, 0, 0, 0, 0, 0, "AAA", "BBB", 0, 0, 0, 0, 0⟩ rfl (by decide)

/-- C10: a voyage whose nanosecond duration is below `(points - 1)·10⁹`
(duration under `points - 1` seconds; in particular a voyage whose grid
points all share one timestamp) gets bucket width `f = 0`, every one of its
rows hits the floor division by zero (NaN/NaT, modelled `none`), and the
voyage contributes no waypoint key at all — no defined waypoint set. -/
theorem waypoints_zero_bucket_width_divides_by_zero
    (route : List Row) (points : Nat) (v : Nat) (hp : 2 ≤ points)
    (hdur : max_time route v - min_time route v < (points : Int) - 1) :
    bucket_f route points v = 0 ∧
      (∀ r ∈ route, r.id = v → bucket_time route points r = none) ∧
      ∀ k ∈ wp_keys route points, k.1 ≠ v := by
  have hnn : 0 ≤ max_time route v - min_time route v := by
    have := min_time_le_max_time route v
    omega
  have hp2 : (2 : Int) ≤ (points : Int) := by exact_mod_cast hp
  have hf : bucket_f route points v = 0 := by
    unfold bucket_f
    rw [Int.fdiv_eq_ediv _ (by omega)]
    exact Int.ediv_eq_zero_of_lt (by omega) (by omega)
  have hnone : ∀ r ∈ route, r.id = v → bucket_time route points r = none := by
    intro r _ hid
    unfold bucket_time
    rw [hid]
    simp [hf]
  refine ⟨hf, hnone, ?_⟩
  intro k hk hkv
  have hkm := dedup_first_subset _ _ hk
  rcases List.mem_filterMap.mp hkm with ⟨r, hr, hfr⟩
  rcases Option.map_eq_some'.mp hfr with ⟨t, hbt, hkt⟩
  have hrid : r.id = v := by
    have : r.id = k.1 := by rw [← hkt]
    rw [this, hkv]
  rw [hnone r hr hrid] at hbt
  exact Option.noConfusion hbt

/-- Witness for C10: a voyage with two rows at one timestamp and
`points = 3`. -/
theorem waypoints_zero_bucket_width_witness :
    bucket_f c10_route 3 0 = 0 ∧
      (∀ r ∈ c10_route, r.id = 0 → bucket_time c10_route 3 r = none) ∧
      ∀ k ∈ wp_keys c10_route 3, k.1 ≠ 0 :=
  waypoints_zero_bucket_width_divides_by_zero c10_route 3 0 (by decide)
    (by decide)

/-- C7: in the minimum-speed pass of `clean_data`, a row (of either
dataframe, after the stationarity pass) survives iff its voyage id has no
interpolated grid point with `sog <= speed`; the removal is whole-voyage
from both dataframes and no other voyage is removed by this pass. -/
theorem clean_data_speed_whole_voyage
    (inter : Int → List Row → List Row) (dist : Rat × Rat → Rat × Rat → Rat)
    (threshold : Rat) (interval_s : Int) (speed : Rat)
    (routes interp : List Row) (row : Row) :
    (row ∈ (clean_data inter dist threshold interval_s speed routes interp).1
      ↔ row ∈ (clean_data_pass1 inter dist threshold interval_s routes interp).1
          ∧ ¬ ∃ r ∈ (clean_data_pass1 inter dist threshold interval_s routes
              interp).2, r.id = row.id ∧ r.sog ≤ speed) ∧
    (row ∈ (clean_data inter dist threshold interval_s speed routes interp).2
      ↔ row ∈ (clean_data_pass1 inter dist threshold interval_s routes interp).2
          ∧ ¬ ∃ r ∈ (clean_data_pass1 inter dist threshold interval_s routes
              interp).2, r.id = row.id ∧ r.sog ≤ speed) := by
  unfold clean_data
  constructor
  · rw [List.mem_filter]
    simp [List.any_eq_true]
  · rw [List.mem_filter]
    simp [List.any_eq_true]

/-! ### `create_waypoints`: discard / re-resample / merge -/

/-- C4 counterexample: the single re-resampling interval divides the
smallest qualifying duration by the waypoint amount N, not N − 1.  For a
single 30-minute voyage (1800 s) and N = 10 the code computes
`int(30 * 60 / 10) = 180` seconds, whereas duration/(N − 1) is
`1800 / 9 = 200` seconds. -/
theorem create_waypoints_interval_divisor_cex :
    wp_smallest_length c4_routes c4_interp 10 = some 30 ∧
      wp_interval c4_routes c4_interp 10 = some 180 ∧
      (180 : Int) ≠ Int.fdiv (30 * 60) (10 - 1) := by
  refine ⟨by decide, by decide, by decide⟩

/-- C4 (amended): in `create_waypoints` with target amount N, the rows
re-resampled are exactly the interpolated rows of ids with fewer than N
grid points and trip length at least 30 minutes (shorter voyages are
discarded outright); the rows kept unresampled are exactly those of ids
with at least N grid points; and all qualifying short voyages are
re-resampled at the single batch-wide interval
`int(smallest_length_minutes * 60 / N)` — divided by N, not N − 1 — then
concatenated and bucketed.  (Hypothesis: every interpolated id occurs in
the raw routes frame, as holds for the pipeline's own dataframes.) -/
theorem create_waypoints_discard_and_merge
    (inter : Int → List Row → List Row) (routes interp : List Row)
    (amount : Nat) (row : Row)
    (hids : ∀ r ∈ interp, ∃ q ∈ routes, q.id = r.id) :
    (row ∈ wp_short_kept routes interp amount
      ↔ row ∈ interp ∧ point_count interp row.id < amount ∧
          30 ≤ trip_length_min routes row.id) ∧
    (row ∈ wp_interpolated_local routes interp amount
      ↔ row ∈ interp ∧ amount ≤ point_count interp row.id) ∧
    (wp_interval routes interp amount
      = (wp_smallest_length routes interp amount).map fun s =>
          Int.fdiv (s * 60) (amount : Int)) ∧
    ∀ iv, wp_interval routes interp amount = some iv →
      create_waypoints inter routes interp amount
        = some (waypoints_fn
            (inter iv (wp_short_kept routes interp amount)
              ++ wp_interpolated_local routes interp amount) amount) := by
  refine ⟨?_, ?_, rfl, ?_⟩
  · unfold wp_short_kept
    rw [List.mem_filter, List.mem_filter]
    constructor
    · rintro ⟨⟨h1, h2⟩, h3⟩
      simp only [Bool.and_eq_true, decide_eq_true_eq] at h2 h3
      exact ⟨h1, h2.1, h3⟩
    · rintro ⟨h1, h2, h3⟩
      rcases hids row h1 with ⟨q, hq, hqid⟩
      refine ⟨⟨h1, ?_⟩, by simpa using h3⟩
      simp only [Bool.and_eq_true, decide_eq_true_eq]
      exact ⟨h2, List.any_eq_true.mpr ⟨q, hq, by simpa using hqid⟩⟩
  · unfold wp_interpolated_local
    rw [List.mem_filter]
    constructor
    · rintro ⟨h1, h2⟩
      refine ⟨h1, ?_⟩
      rcases hids row h1 with ⟨q, hq, hqid⟩
      have hany : (routes.any fun q2 => q2.id == row.id) = true :=
        List.any_eq_true.mpr ⟨q, hq, by simpa using hqid⟩
      cases hlt : decide (point_count interp row.id < amount) with
      | false =>
        simp only [decide_eq_false_iff_not] at hlt
        omega
      | true =>
        rw [hlt, hany] at h2
        simp at h2
    · rintro ⟨h1, h2⟩
      refine ⟨h1, ?_⟩
      have hlt : decide (point_count interp row.id < amount) = false := by
        simp only [decide_eq_false_iff_not]
        omega
      rw [hlt]
      simp
  · intro iv hiv
    unfold create_waypoints
    rw [hiv]

/-- Witness for C4 (amended) at the 30-minute voyage with N = 10. -/
theorem create_waypoints_discard_and_merge_witness :
    ((⟨0, 1, 0, 0, 0, 0, 0, "AAA", "BBB", 0, 0, 0, 0, 0⟩ : Row)
        ∈ wp_short_kept c4_routes c4_interp 10
      ↔ (⟨0, 1, 0, 0, 0, 0, 0, "AAA", "BBB", 0, 0, 0, 0, 0⟩ : Row) ∈ c4_interp
          ∧ point_count c4_interp 0 < 10 ∧ 30 ≤ trip_length_min c4_routes 0) ∧
    ((⟨0, 1, 0, 0, 0, 0, 0, "AAA", "BBB", 0, 0, 0, 0, 0⟩ : Row)
        ∈ wp_interpolated_local c4_routes c4_interp 10
      ↔ (⟨0, 1, 0, 0, 0, 0, 0, "AAA", "BBB", 0, 0, 0, 0, 0⟩ : Row) ∈ c4_interp
          ∧ 10 ≤ point_count c4_interp 0) ∧
    (wp_interval c4_routes c4_interp 10
      = (wp_smallest_length c4_routes c4_interp 10).map fun s =>
          Int.fdiv (s * 60) (10 : Int)) ∧
    ∀ iv, wp_interval c4_routes c4_interp 10 = some iv →
      create_waypoints (fun _ l => l) c4_routes c4_interp 10
        = some (waypoints_fn
            ((fun _ l => l : Int → List Row → List Row) iv
                (wp_short_kept c4_routes c4_interp 10)
              ++ wp_interpolated_local c4_routes c4_interp 10) 10) :=
  create_waypoints_discard_and_merge (fun _ l => l) c4_routes c4_interp 10
    ⟨0, 1, 0, 0, 0, 0, 0, "AAA", "BBB", 0, 0, 0, 0, 0⟩ (by decide)

/-! ### Pipeline precondition checks (`NotdefinedError`) -/

/-- C8: every pipeline stage invoked while a required upstream dataframe is
`None` raises `NotdefinedError` for that dataframe immediately, and the
object's stored dataframes are unchanged by the failed call (the returned
state is exactly the input state). -/
theorem pipeline_preconditions_raise_and_preserve_state (s : CleanAis)
    (inside : Rat × Rat → List (Rat × Rat) → Bool)
    (dist : Rat × Rat → Rat × Rat → Rat) (speed_limit threshold speed : Rat)
    (inter : Int → List Row → List Row) (interval_s : Int) (amount : Nat) :
    (s.ais_data = none →
      s.create_routes_m inside dist speed_limit
        = (s, some (notdefined_msg "ais_data"))) ∧
    (s.ais_data ≠ none → s.ports = none →
      s.create_routes_m inside dist speed_limit
        = (s, some (notdefined_msg "ports"))) ∧
    (s.polygon = none →
      s.remove_routes_outside_polygon_m inside
        = (s, some (notdefined_msg "polygon"))) ∧
    (s.polygon ≠ none → s.routes = none →
      s.remove_routes_outside_polygon_m inside
        = (s, some (notdefined_msg "routes"))) ∧
    (s.routes = none →
      s.interpolate_routes_m inter interval_s
        = (s, some (notdefined_msg "routes"))) ∧
    (s.routes = none →
      s.clean_data_m inter dist threshold interval_s speed
        = (s, some (notdefined_msg "routes"))) ∧
    (s.routes ≠ none → s.interpolated_routes = none →
      s.clean_data_m inter dist threshold interval_s speed
        = (s, some (notdefined_msg "interpolated_routes"))) ∧
    (s.interpolated_routes = none →
      s.create_waypoints_m inter amount
        = (s, some (notdefined_msg "interpolated_routes"))) ∧
    (s.interpolated_routes ≠ none → s.routes = none →
      s.create_waypoints_m inter amount
        = (s, some (notdefined_msg "routes"))) ∧
    (s.routes = none →
      s.save_routes_m = (s, some (notdefined_msg "routes"))) ∧
    (s.interpolated_routes = none →
      s.save_interpolated_m = (s, some (notdefined_msg "interpolated_routes"))) ∧
    (s.waypoints = none →
      s.save_waypoints_m = (s, some (notdefined_msg "waypoints"))) := by
  refine ⟨?_, ?_, ?_, ?_, ?_, ?_, ?_, ?_, ?_, ?_, ?_, ?_⟩
  · intro h
    unfold CleanAis.create_routes_m
    rw [h]
  · intro h1 h2
    rcases Option.ne_none_iff_exists.mp h1 with ⟨a, ha⟩
    unfold CleanAis.create_routes_m
    rw [← ha, h2]
  · intro h
    unfold CleanAis.remove_routes_outside_polygon_m
    rw [h]
  · intro h1 h2
    rcases Option.ne_none_iff_exists.mp h1 with ⟨a, ha⟩
    unfold CleanAis.remove_routes_outside_polygon_m
    rw [← ha, h2]
  · intro h
    unfold CleanAis.interpolate_routes_m
    rw [h]
  · intro h
    unfold CleanAis.clean_data_m
    rw [h]
  · intro h1 h2
    rcases Option.ne_none_iff_exists.mp h1 with ⟨a, ha⟩
    unfold CleanAis.clean_data_m
    rw [← ha, h2]
  · intro h
    unfold CleanAis.create_waypoints_m
    rw [h]
  · intro h1 h2
    rcases Option.ne_none_iff_exists.mp h1 with ⟨a, ha⟩
    unfold CleanAis.create_waypoints_m
    rw [← ha, h2]
  · intro h
    unfold CleanAis.save_routes_m
    rw [h]
    rfl
  · intro h
    unfold CleanAis.save_interpolated_m
    rw [h]
    rfl
  · intro h
    unfold CleanAis.save_waypoints_m
    rw [h]
    rfl

/-- Witness for C8, discharging every precondition at concrete states: the
freshly constructed object (everything `None`), a state with `ais_data`,
`polygon` and `interpolated_routes` present but `ports` and `routes`
absent, and a state with `routes` present but `interpolated_routes`
absent. -/
theorem pipeline_preconditions_witness :
    ((⟨none, none, none, none, none, none, none⟩ : CleanAis).create_routes_m
        (fun _ _ => true) (fun _ _ => 0) 3
      = (⟨none, none, none, none, none, none, none⟩,
          some (notdefined_msg "ais_data"))) ∧
    ((⟨none, none, some [], some [], some [], none, none⟩ :
        CleanAis).create_routes_m (fun _ _ => true) (fun _ _ => 0) 3
      = (⟨none, none, some [], some [], some [], none, none⟩,
          some (notdefined_msg "ports"))) ∧
    ((⟨none, none, none, none, none, none, none⟩ :
        CleanAis).remove_routes_outside_polygon_m (fun _ _ => true)
      = (⟨none, none, none, none, none, none, none⟩,
          some (notdefined_msg "polygon"))) ∧
    ((⟨none, none, some [], some [], some [], none, none⟩ :
        CleanAis).remove_routes_outside_polygon_m (fun _ _ => true)
      = (⟨none, none, some [], some [], some [], none, none⟩,
          some (notdefined_msg "routes"))) ∧
    ((⟨none, none, none, none, none, none, none⟩ :
        CleanAis).interpolate_routes_m (fun _ l => l) 1
      = (⟨none, none, none, none, none, none, none⟩,
          some (notdefined_msg "routes"))) ∧
    ((⟨none, none, none, none, none, none, none⟩ : CleanAis).clean_data_m
        (fun _ l => l) (fun _ _ => 0) 10 86400 (1 / 2)
      = (⟨none, none, none, none, none, none, none⟩,
          some (notdefined_msg "routes"))) ∧
    ((⟨none, some [], none, none, none, none, none⟩ : CleanAis).clean_data_m
        (fun _ l => l) (fun _ _ => 0) 10 86400 (1 / 2)
      = (⟨none, some [], none, none, none, none, none⟩,
          some (notdefined_msg "interpolated_routes"))) ∧
    ((⟨none, none, none, none, none, none, none⟩ :
        CleanAis).create_waypoints_m (fun _ l => l) 100
      = (⟨none, none, none, none, none, none, none⟩,
          some (notdefined_msg "interpolated_routes"))) ∧
    ((⟨none, none, some [], some [], some [], none, none⟩ :
        CleanAis).create_waypoints_m (fun _ l => l) 100
      = (⟨none, none, some [], some [], some [], none, none⟩,
          some (notdefined_msg "routes"))) ∧
    ((⟨none, none, none, none, none, none, none⟩ : CleanAis).save_routes_m
      = (⟨none, none, none, none, none, none, none⟩,
          some (notdefined_msg "routes"))) ∧
    ((⟨none, none, none, none, none, none, none⟩ :
        CleanAis).save_interpolated_m
      = (⟨none, none, none, none, none, none, none⟩,
          some (notdefined_msg "interpolated_routes"))) ∧
    ((⟨none, none, none, none, none, none, none⟩ : CleanAis).save_waypoints_m
      = (⟨none, none, none, none, none, none, none⟩,
          some (notdefined_msg "waypoints"))) := by
  refine ⟨?_, ?_, ?_, ?_, ?_, ?_, ?_, ?_, ?_, ?_, ?_, ?_⟩
  · exact (pipeline_preconditions_raise_and_preserve_state _ (fun _ _ => true)
      (fun _ _ => 0) 3 10 (1 / 2) (fun _ l => l) 86400 100).1 rfl
  · exact (pipeline_preconditions_raise_and_preserve_state _ (fun _ _ => true)
      (fun _ _ => 0) 3 10 (1 / 2) (fun _ l => l) 86400 100).2.1
      (by simp) rfl
  · exact (pipeline_preconditions_raise_and_preserve_state _ (fun _ _ => true)
      (fun _ _ => 0) 3 10 (1 / 2) (fun _ l => l) 86400 100).2.2.1 rfl
  · exact (pipeline_preconditions_raise_and_preserve_state _ (fun _ _ => true)
      (fun _ _ => 0) 3 10 (1 / 2) (fun _ l => l) 86400 100).2.2.2.1
      (by simp) rfl
  · exact (pipeline_preconditions_raise_and_preserve_state _ (fun _ _ => true)
      (fun _ _ => 0) 3 10 (1 / 2) (fun _ l => l) 1 100).2.2.2.2.1 rfl
  · exact (pipeline_preconditions_raise_and_preserve_state _ (fun _ _ => true)
      (fun _ _ => 0) 3 10 (1 / 2) (fun _ l => l) 86400 100).2.2.2.2.2.1 rfl
  · exact (pipeline_preconditions_raise_and_preserve_state _ (fun _ _ => true)
      (fun _ _ => 0) 3 10 (1 / 2) (fun _ l => l) 86400
      100).2.2.2.2.2.2.1 (by simp) rfl
  · exact (pipeline_preconditions_raise_and_preserve_state _ (fun _ _ => true)
      (fun _ _ => 0) 3 10 (1 / 2) (fun _ l => l) 86400
      100).2.2.2.2.2.2.2.1 rfl
  · exact (pipeline_preconditions_raise_and_preserve_state _ (fun _ _ => true)
      (fun _ _ => 0) 3 10 (1 / 2) (fun _ l => l) 86400
      100).2.2.2.2.2.2.2.2.1 (by simp) rfl
  · exact (pipeline_preconditions_raise_and_preserve_state _ (fun _ _ => true)
      (fun _ _ => 0) 3 10 (1 / 2) (fun _ l => l) 86400
      100).2.2.2.2.2.2.2.2.2.1 rfl
  · exact (pipeline_preconditions_raise_and_preserve_state _ (fun _ _ => true)
      (fun _ _ => 0) 3 10 (1 / 2) (fun _ l => l) 86400
      100).2.2.2.2.2.2.2.2.2.2.1 rfl
  · exact (pipeline_preconditions_raise_and_preserve_state _ (fun _ _ => true)
      (fun _ _ => 0) 3 10 (1 / 2) (fun _ l => l) 86400
      100).2.2.2.2.2.2.2.2.2.2.2 rfl

end AISClean
